import Mathlib

/-!
Shallow embedding of the participant / relation data model, the repository
layer and the role-resolution logic of the streamlit-usermanager-demo
application, with proofs about the specification's claims.

Conventions of the embedding:
- database rows are plain structures; a database is a pair of row lists;
- machine timestamps are modelled as natural numbers; the current time is
  passed explicitly where the code calls for it;
- fallible code (database errors, pydantic validation errors, ValueError)
  is modelled with Except, the error payload being a short message;
- python sets of strings are modelled as Finset String, python lists as
  List.
-/

/-! ## Python string primitives

The name and state alphabet of the application is ASCII, where Lean's
Char.toUpper coincides with python's str.upper and the whitespace set
below covers python's str.strip default set. -/

/-- Whitespace recognised by python's default str.strip (ASCII part). -/
def pyWhitespace (c : Char) : Bool :=
  c = ' ' || c = '\t' || c = '\n' || c = '\r' || c = '\x0b' || c = '\x0c'

/-- Python str.strip on a character list: drop whitespace from both ends. -/
def pyStripList (l : List Char) : List Char :=
  ((l.dropWhile pyWhitespace).reverse.dropWhile pyWhitespace).reverse

/-- Python str.strip, as applied by pydantic's str_strip_whitespace. -/
def pyStrip (s : String) : String := ⟨pyStripList s.data⟩

/-- Python str.upper on the ASCII name alphabet. -/
def pyUpper (s : String) : String := ⟨s.data.map Char.toUpper⟩

/-! ## Name validation (participants/models/participant.py)

VALID_NAME_PATTERN is the regex `^[a-zA-Z][a-zA-Z0-9_-]{1,29}$`, applied
with python's re.match, whose `$` anchor also matches just before one
final newline. -/

/-- First character class `[a-zA-Z]` of VALID_NAME_PATTERN. -/
def nameHeadOk (c : Char) : Bool :=
  ('a' ≤ c && c ≤ 'z') || ('A' ≤ c && c ≤ 'Z')

/-- Tail character class `[a-zA-Z0-9_-]` of VALID_NAME_PATTERN. -/
def nameTailOk (c : Char) : Bool :=
  nameHeadOk c || ('0' ≤ c && c ≤ '9') || c = '_' || c = '-'

/-- Fully anchored match of `[a-zA-Z][a-zA-Z0-9_-]{1,29}` against a whole
character list. -/
def nameCoreMatch (l : List Char) : Bool :=
  match l with
  | [] => false
  | c :: cs =>
      nameHeadOk c && cs.all nameTailOk &&
        decide (1 ≤ cs.length) && decide (cs.length ≤ 29)

/-- Function is_valid_name: bool(re.match(VALID_NAME_PATTERN, name)) for a
truthy name, False otherwise. Python's `$` also accepts one trailing
newline, which the disjunct on dropLast reproduces. -/
def is_valid_name (s : String) : Bool :=
  s ≠ "" &&
    (nameCoreMatch s.data ||
      (s.data.getLast? = some '\n' && nameCoreMatch s.data.dropLast))

/-! ## Database rows (the SQLModel table models)

Table models skip pydantic validation, so rows carry raw stored values. -/

/-- A row of the participants table (ParticipantModel). -/
structure ParticipantRow where
  id : Nat
  name : String
  display_name : String
  description : Option String := none
  email : Option String := none
  participant_type : String
  state : Option String := none
  external_reference : Option String := none
  hashed_password : Option String := none
  update_count : Int := 0
  created_by : String
  created_timestamp : Option Nat := some 0
  updated_by : Option String := none
  updated_timestamp : Option Nat := none
deriving DecidableEq, Repr

/-- A row of the participant_relations table (ParticipantRelationModel). -/
structure ParticipantRelationRow where
  id : Nat
  pati1_id : Nat
  pati2_id : Nat
  relation_type : String
  created_by : String
  created_timestamp : Nat := 0
deriving DecidableEq, Repr

/-- The relational store the repositories operate on. -/
structure DB where
  participants : List ParticipantRow
  relations : List ParticipantRelationRow
deriving DecidableEq, Repr

/-! ## The validated Participant schema object

Pydantic's Participant class carries hydrated relation lists of further
Participants, hence the recursive inductive. Construction from a row
(toParticipant below) models pydantic validation; attribute assignment
after construction is unvalidated in the code, so state stays an Option. -/

/-- Validated Participant object (participants/models/participant.py,
class Participant). -/
inductive Participant where
  | mk
      (id : Nat)
      (name : String)
      (display_name : String)
      (description : Option String)
      (email : Option String)
      (participant_type : String)
      (state : Option String)
      (external_reference : Option String)
      (hashed_password : Option String)
      (update_count : Int)
      (created_by : String)
      (created_timestamp : Nat)
      (updated_by : Option String)
      (updated_timestamp : Option Nat)
      (org_units : List Participant)
      (roles : List Participant)
      (proxy_of : List Participant)
      (proxies : List Participant)
      (effective_roles : Finset String)

def Participant.id : Participant → Nat
  | .mk i _ _ _ _ _ _ _ _ _ _ _ _ _ _ _ _ _ _ => i

def Participant.name : Participant → String
  | .mk _ n _ _ _ _ _ _ _ _ _ _ _ _ _ _ _ _ _ => n

def Participant.display_name : Participant → String
  | .mk _ _ d _ _ _ _ _ _ _ _ _ _ _ _ _ _ _ _ => d

def Participant.description : Participant → Option String
  | .mk _ _ _ d _ _ _ _ _ _ _ _ _ _ _ _ _ _ _ => d

def Participant.email : Participant → Option String
  | .mk _ _ _ _ e _ _ _ _ _ _ _ _ _ _ _ _ _ _ => e

def Participant.participant_type : Participant → String
  | .mk _ _ _ _ _ t _ _ _ _ _ _ _ _ _ _ _ _ _ => t

def Participant.state : Participant → Option String
  | .mk _ _ _ _ _ _ s _ _ _ _ _ _ _ _ _ _ _ _ => s

def Participant.external_reference : Participant → Option String
  | .mk _ _ _ _ _ _ _ r _ _ _ _ _ _ _ _ _ _ _ => r

def Participant.hashed_password : Participant → Option String
  | .mk _ _ _ _ _ _ _ _ h _ _ _ _ _ _ _ _ _ _ => h

def Participant.update_count : Participant → Int
  | .mk _ _ _ _ _ _ _ _ _ c _ _ _ _ _ _ _ _ _ => c

def Participant.created_by : Participant → String
  | .mk _ _ _ _ _ _ _ _ _ _ c _ _ _ _ _ _ _ _ => c

def Participant.created_timestamp : Participant → Nat
  | .mk _ _ _ _ _ _ _ _ _ _ _ t _ _ _ _ _ _ _ => t

def Participant.updated_by : Participant → Option String
  | .mk _ _ _ _ _ _ _ _ _ _ _ _ u _ _ _ _ _ _ => u

def Participant.updated_timestamp : Participant → Option Nat
  | .mk _ _ _ _ _ _ _ _ _ _ _ _ _ u _ _ _ _ _ => u

def Participant.org_units : Participant → List Participant
  | .mk _ _ _ _ _ _ _ _ _ _ _ _ _ _ o _ _ _ _ => o

def Participant.roles : Participant → List Participant
  | .mk _ _ _ _ _ _ _ _ _ _ _ _ _ _ _ r _ _ _ => r

def Participant.proxy_of : Participant → List Participant
  | .mk _ _ _ _ _ _ _ _ _ _ _ _ _ _ _ _ p _ _ => p

def Participant.proxies : Participant → List Participant
  | .mk _ _ _ _ _ _ _ _ _ _ _ _ _ _ _ _ _ p _ => p

def Participant.effective_roles : Participant → Finset String
  | .mk _ _ _ _ _ _ _ _ _ _ _ _ _ _ _ _ _ _ e => e

/-- Attribute assignment participant.state = v (unvalidated in pydantic
without validate_assignment). -/
def Participant.withState : Participant → Option String → Participant
  | .mk i n d de e t _ r h c cb ct ub ut o ro p px ef, s =>
      .mk i n d de e t s r h c cb ct ub ut o ro p px ef

/-- Attribute assignment participant.effective_roles = v. -/
def Participant.withEffectiveRoles : Participant → Finset String → Participant
  | .mk i n d de e t s r h c cb ct ub ut o ro p px _, ef =>
      .mk i n d de e t s r h c cb ct ub ut o ro p px ef

/-- Attribute assignments participant.roles / org_units / proxy_of = v. -/
def Participant.withRelations :
    Participant → List Participant → List Participant → List Participant →
      Participant
  | .mk i n d de e t s r h c cb ct ub ut _ _ _ px ef, o, ro, p =>
      .mk i n d de e t s r h c cb ct ub ut o ro p px ef

/-! ## Pydantic validation of a row into a Participant

Field validators of ParticipantBase / Participant, in pydantic order:
mode="before" validators, then string strip and the type/constraint
check, then mode="after" validators. The external validate_email library
check is not modelled; the email value is passed through. -/

/-- Validation chain of the state field: enum_to_string (None becomes
"ACTIVE") runs before the Literal check, validate_state (falsy becomes
"ACTIVE") after it. -/
def validateState (v : Option String) : Except String String :=
  let v1 : Option String := match v with
    | none => some "ACTIVE"
    | some s => some s
  match v1 with
  | none => Except.ok "ACTIVE"
  | some s =>
      let s := pyStrip s
      if s = "ACTIVE" || s = "TERMINATED" then
        Except.ok (if s = "" then "ACTIVE" else s)
      else Except.error "state: not a valid ParticipantStateLiteral"

/-- Validation of the participant_type field against its Literal type. -/
def validateParticipantType (t : String) : Except String String :=
  let t := pyStrip t
  if t = "HUMAN" || t = "ROLE" || t = "ORG_UNIT" || t = "SYSTEM" then
    Except.ok t
  else Except.error "participant_type: not a valid ParticipantTypeLiteral"

/-- Length-checked optional string field (strip, then max_length). -/
def validateOptStr (field : String) (maxLen : Nat) (v : Option String) :
    Except String (Option String) :=
  match v with
  | none => Except.ok none
  | some s =>
      let s := pyStrip s
      if s.length ≤ maxLen then Except.ok (some s)
      else Except.error (field ++ ": max_length exceeded")

/-- Validation of the required created_timestamp field of Participant: a
stored NULL is rejected (the field is a required datetime). -/
def validateCreatedTimestamp (v : Option Nat) : Except String Nat :=
  match v with
  | none => Except.error "created_timestamp: required"
  | some ct => Except.ok ct

/-- Construction Participant(**row.model_dump()): pydantic validation of a
raw row, as performed by every repository read that returns a
Participant. Name and created_by are stripped, length checked and
uppercased; state and participant_type go through their literal chains;
created_timestamp and id are required. -/
def toParticipant (row : ParticipantRow) : Except String Participant := do
  let name := pyStrip row.name
  if name.length ≤ 30 then
    let display_name := pyStrip row.display_name
    if display_name.length ≤ 60 then
      let created_by := pyStrip row.created_by
      if created_by.length ≤ 30 then
        let state ← validateState row.state
        let ptype ← validateParticipantType row.participant_type
        let description ← validateOptStr "description" 500 row.description
        let email ← validateOptStr "email" 200 row.email
        let external_reference ←
          validateOptStr "external_reference" 500 row.external_reference
        let hashed_password ←
          validateOptStr "hashed_password" 100 row.hashed_password
        let updated_by ← validateOptStr "updated_by" 30 row.updated_by
        let ct ← validateCreatedTimestamp row.created_timestamp
        Except.ok (Participant.mk row.id (pyUpper name) display_name
          description email ptype (some state) external_reference
          hashed_password row.update_count (pyUpper created_by) ct
          updated_by row.updated_timestamp [] [] [] [] ∅)
      else Except.error "created_by: max_length exceeded"
    else Except.error "display_name: max_length exceeded"
  else Except.error "name: max_length exceeded"

/-! ## Relation repository (participant_relation_repo.py)

The SELECT in ParticipantRelationRepository.get joins ParticipantModel on
pati1_id (the source) and an alias on pati2_id (the target) and filters
on the unaliased ParticipantModel's state, that is on the SOURCE row's
state, while the returned participant is the TARGET row. -/

/-- Literal check of RelatedParticipant.relation_type (and of
ParticipantRelationBase.relation_type). -/
def validateRelationType (t : String) : Except String String :=
  if t = "GRANT" || t = "MEMBER OF" || t = "PROXY OF" then Except.ok t
  else Except.error "relation_type: not a valid ParticipantRelationTypeLiteral"

/-- Pydantic RelatedParticipant: a relation type together with the related
(already validated) participant. -/
structure RelatedParticipant where
  relation_type : String
  participant : Participant

/-- Row set of the SELECT in ParticipantRelationRepository.get: the WHERE
clause constrains the source row's state (NULL or ACTIVE), never the
target row's state. -/
def relationGetRows (db : DB) (participant_id : Nat)
    (relation_type : List String) :
    List (ParticipantRelationRow × ParticipantRow × ParticipantRow) :=
  db.relations.flatMap fun rel =>
    db.participants.flatMap fun p1 =>
      db.participants.filterMap fun p2 =>
        if p1.id = rel.pati1_id ∧ p2.id = rel.pati2_id ∧
            rel.pati1_id = participant_id ∧ p1.id = participant_id ∧
            rel.relation_type ∈ relation_type ∧
            (p1.state = none ∨ p1.state = some "ACTIVE")
        then some (rel, p1, p2) else none

/-- Method ParticipantRelationRepository.get: outgoing edges of a
participant, each turned into a RelatedParticipant holding the validated
TARGET participant. -/
def ParticipantRelationRepository.get (db : DB) (participant_id : Nat)
    (relation_type : List String := ["MEMBER OF", "GRANT", "PROXY OF"]) :
    Except String (List RelatedParticipant) :=
  (relationGetRows db participant_id relation_type).mapM fun t => do
    let rt ← validateRelationType t.1.relation_type
    let p ← toParticipant t.2.2
    Except.ok (RelatedParticipant.mk rt p)

/-- Row set of the SELECT in ParticipantRelationRepository.get_reverse:
incoming edges; the state filter is again on the source row, which here
is the related participant being returned. -/
def relationGetReverseRows (db : DB) (participant_id : Nat)
    (relation_type : List String) :
    List (ParticipantRelationRow × ParticipantRow × ParticipantRow) :=
  db.relations.flatMap fun rel =>
    db.participants.flatMap fun p1 =>
      db.participants.filterMap fun p2 =>
        if p1.id = rel.pati1_id ∧ p2.id = rel.pati2_id ∧
            rel.pati2_id = participant_id ∧
            rel.relation_type ∈ relation_type ∧
            (p1.state = none ∨ p1.state = some "ACTIVE")
        then some (rel, p1, p2) else none

/-- Method ParticipantRelationRepository.get_reverse: incoming edges, each
turned into a RelatedParticipant holding the validated SOURCE
participant. -/
def ParticipantRelationRepository.get_reverse (db : DB) (participant_id : Nat)
    (relation_type : List String := ["MEMBER OF", "GRANT", "PROXY OF"]) :
    Except String (List RelatedParticipant) :=
  (relationGetReverseRows db participant_id relation_type).mapM fun t => do
    let rt ← validateRelationType t.1.relation_type
    let p ← toParticipant t.2.1
    Except.ok (RelatedParticipant.mk rt p)

/-- Validated ParticipantRelationCreate object (relation_type has passed
its literal check, created_by is uppercased by its validator). -/
structure ParticipantRelationCreate where
  pati1_id : Nat
  pati2_id : Nat
  relation_type : String
  created_by : String
  created_timestamp : Nat
deriving DecidableEq, Repr

/-- Fresh autoincrement id for an insert into participant_relations. -/
def freshRelationId (db : DB) : Nat :=
  (db.relations.map (fun r => r.id)).foldr Nat.max 0 + 1

/-- Method ParticipantRelationRepository.create. In the source the try
block only wraps session.add(model), an in-memory operation that cannot
raise IntegrityError; the uniqueness violation of the
(pati1_id, pati2_id, relation_type) constraint surfaces at
session.flush() in the else block, outside the handler, so it propagates
for BOTH values of raise_error_on_duplicate and the except IntegrityError
branch (raise when the flag is set, log and return None otherwise) is
dead code. -/
def ParticipantRelationRepository.create (db : DB)
    (participant_relation : ParticipantRelationCreate)
    (raise_error_on_duplicate : Bool := false) :
    Except String (DB × ParticipantRelationCreate) :=
  -- session.add(model): raises neither IntegrityError nor anything else here
  -- session.flush(): the INSERT enforces participant_relations_ak1
  if db.relations.any fun r =>
      r.pati1_id = participant_relation.pati1_id ∧
      r.pati2_id = participant_relation.pati2_id ∧
      r.relation_type = participant_relation.relation_type then
    Except.error "IntegrityError: UNIQUE constraint participant_relations_ak1"
  else
    let row : ParticipantRelationRow :=
      { id := freshRelationId db
        pati1_id := participant_relation.pati1_id
        pati2_id := participant_relation.pati2_id
        relation_type := participant_relation.relation_type
        created_by := participant_relation.created_by
        created_timestamp := participant_relation.created_timestamp }
    Except.ok ({ db with relations := db.relations ++ [row] },
      participant_relation)

/-! ## Participant repository (participant_repo.py) -/

/-- Valid participant types, as enumerated by ParticipantType. -/
def participantTypes : List String := ["HUMAN", "ROLE", "ORG_UNIT", "SYSTEM"]

/-- Attribute assignment participant.proxies = v. -/
def Participant.withProxies : Participant → List Participant → Participant
  | .mk i n d de e t s r h c cb ct ub ut o ro p _ ef, px =>
      .mk i n d de e t s r h c cb ct ub ut o ro p px ef

/-- Method ParticipantRepository.set_relations: hydrates roles, org_units
and proxy_of from the outgoing edges (skipping related participants whose
state differs from ACTIVE), and optionally proxies from incoming
PROXY OF edges filtered the same way. -/
def ParticipantRepository.set_relations (db : DB) (participant : Participant)
    (set_proxies : Bool := false) : Except String Participant := do
  let relations ← ParticipantRelationRepository.get db participant.id
  if relations.isEmpty then
    Except.ok participant
  else
    let step := fun (acc : List Participant × List Participant × List Participant)
        (r : RelatedParticipant) =>
      if r.participant.state ≠ some "ACTIVE" then acc
      else
        match r.relation_type with
        | "GRANT" => (acc.1 ++ [r.participant], acc.2.1, acc.2.2)
        | "MEMBER OF" => (acc.1, acc.2.1 ++ [r.participant], acc.2.2)
        | "PROXY OF" => (acc.1, acc.2.1, acc.2.2 ++ [r.participant])
        | _ => acc
    let rop := relations.foldl step ([], [], [])
    let p := participant.withRelations rop.2.1 rop.1 rop.2.2
    if set_proxies = false then
      Except.ok p
    else do
      let proxies ← ParticipantRelationRepository.get_reverse db participant.id
        ["PROXY OF"]
      if proxies.isEmpty then
        Except.ok p
      else
        Except.ok (p.withProxies ((proxies.filter fun r =>
          r.participant.state = some "ACTIVE").map fun r => r.participant))

/-- Method ParticipantRepository.get_by_name: ValueError on an invalid
participant_type, then an exact (case sensitive) one_or_none lookup on
(name, participant_type); a double match raises, a miss either raises
ParticipantNotFoundError or yields none. -/
def ParticipantRepository.get_by_name (db : DB) (name : String)
    (participant_type : String) (include_relations : Bool := false)
    (include_proxies : Bool := false)
    (raise_error_if_not_found : Bool := false) :
    Except String (Option Participant) :=
  if participant_type ∉ participantTypes then
    Except.error "ValueError: wrong participant_type"
  else
    match db.participants.filter fun r =>
        r.name = name ∧ r.participant_type = participant_type with
    | [] =>
        if raise_error_if_not_found then
          Except.error "ParticipantNotFoundError"
        else Except.ok none
    | [row] => do
        let p ← toParticipant row
        if include_relations then
          (ParticipantRepository.set_relations db p include_proxies).map some
        else Except.ok (some p)
    | _ => Except.error "MultipleResultsFound"

/-- Method ParticipantRepository.get_by_display_name, analogous to
get_by_name with the lookup on (display_name, participant_type). -/
def ParticipantRepository.get_by_display_name (db : DB) (display_name : String)
    (participant_type : String) (include_relations : Bool := false)
    (include_proxies : Bool := false)
    (raise_error_if_not_found : Bool := false) :
    Except String (Option Participant) :=
  if participant_type ∉ participantTypes then
    Except.error "ValueError: wrong participant_type"
  else
    match db.participants.filter fun r =>
        r.display_name = display_name ∧
        r.participant_type = participant_type with
    | [] =>
        if raise_error_if_not_found then
          Except.error "ParticipantNotFoundError"
        else Except.ok none
    | [row] => do
        let p ← toParticipant row
        if include_relations then
          (ParticipantRepository.set_relations db p include_proxies).map some
        else Except.ok (some p)
    | _ => Except.error "MultipleResultsFound"

/-- Method ParticipantRepository.get_by_id: a one_or_none lookup on id
alone (no participant_type argument and no type filter). -/
def ParticipantRepository.get_by_id (db : DB) (id_ : Nat)
    (include_relations : Bool := false) (include_proxies : Bool := false)
    (raise_error_if_not_found : Bool := false) :
    Except String (Option Participant) :=
  match db.participants.filter fun r => r.id = id_ with
  | [] =>
      if raise_error_if_not_found then
        Except.error "ParticipantNotFoundError"
      else Except.ok none
  | [row] => do
      let p ← toParticipant row
      if include_relations then
        (ParticipantRepository.set_relations db p include_proxies).map some
      else Except.ok (some p)
  | _ => Except.error "MultipleResultsFound"

/-- Python value passed as the value argument of exists (int | str). -/
inductive PyVal where
  | int (n : Nat)
  | str (s : String)
deriving DecidableEq, Repr

/-- Python str() of the state attribute of a validated Participant. -/
def pyStr (v : Option String) : String :=
  match v with
  | some s => s
  | none => "None"

/-- Method ParticipantRepository.exists: ValueError on an invalid
participant_type or column; a value whose python type does not match the
column returns False; otherwise the participant is looked up (by name or
display_name together with the type, by id alone) and its state string is
returned when found, False (here: none) otherwise. -/
def ParticipantRepository.exists (db : DB) (column : String) (value : PyVal)
    (participant_type : String) : Except String (Option String) :=
  if participant_type ∉ participantTypes then
    Except.error "ValueError: wrong participant_type"
  else if column ∉ ["id", "name", "display_name"] then
    Except.error "ValueError: wrong column"
  else if column = "id" then
    match value with
    | .str _ => Except.ok none
    | .int n => do
        let pati ← ParticipantRepository.get_by_id db n
        Except.ok (pati.map fun p => pyStr p.state)
  else
    match value with
    | .int _ => Except.ok none
    | .str s =>
        if column = "name" then do
          let pati ← ParticipantRepository.get_by_name db s participant_type
          Except.ok (pati.map fun p => pyStr p.state)
        else do
          let pati ←
            ParticipantRepository.get_by_display_name db s participant_type
          Except.ok (pati.map fun p => pyStr p.state)

/-- SQL coalesce of the get_all state filter. -/
def coalesce3 (a b : Option String) (c : String) : String :=
  match a with
  | some x => x
  | none =>
      match b with
      | some y => y
      | none => c

/-- Method ParticipantRepository.get_all: participants of one type,
ordered by display_name; when only_active is requested the coalesce
filter keeps rows whose state is ACTIVE or NULL (NULL treated as
ACTIVE), otherwise it is trivially satisfied. -/
def ParticipantRepository.get_all (db : DB) (participant_type : String)
    (include_relations : Bool := false) (only_active : Bool := false) :
    Except String (List Participant) := do
  if participant_type ∉ participantTypes then
    Except.error "ValueError: wrong participant_type"
  else
    let active_state_filter : Option String :=
      if only_active then none else some "ACTIVE"
    let rows := (db.participants.filter fun r =>
      r.participant_type = participant_type ∧
      coalesce3 active_state_filter r.state "ACTIVE" = "ACTIVE").mergeSort
        fun a b => a.display_name ≤ b.display_name
    let participants ← rows.mapM toParticipant
    if include_relations then
      participants.mapM fun p => ParticipantRepository.set_relations db p
    else Except.ok participants

/-- Helper get_granted_roles inside compute_effective_roles: the union of
the names of the target participants of the outgoing GRANT edges of each
given participant (the relation repository's get applies its source-state
filter; the targets' states are not filtered). -/
def getGrantedRoles (db : DB) (participants : List Participant) :
    Except String (Finset String) :=
  participants.foldlM
    (fun roles pati => do
      let relations ← ParticipantRelationRepository.get db pati.id ["GRANT"]
      Except.ok (roles ∪ (relations.map fun r => r.participant.name).toFinset))
    ∅

/-- Method ParticipantRepository.compute_effective_roles: names of the
directly granted roles, plus the GRANT targets of each org unit and of
each proxy target (one hop); the union is stored into
participant.effective_roles and returned. -/
def ParticipantRepository.compute_effective_roles (db : DB)
    (participant : Participant) : Except String (Participant × Finset String) := do
  let direct : Finset String :=
    (participant.roles.map fun r => r.name).toFinset
  let fromOrgs ← getGrantedRoles db participant.org_units
  let fromProxies ← getGrantedRoles db participant.proxy_of
  let eff := direct ∪ fromOrgs ∪ fromProxies
  Except.ok (participant.withEffectiveRoles eff, eff)

/-- Method ParticipantRepository.set_participant_state: a no-op for the
participant named SYSTEM; otherwise an UPDATE of state and
updated_timestamp on the rows matching the id, mirrored into the object
when exactly one row was hit, with an optional not-found error. -/
def ParticipantRepository.set_participant_state (db : DB)
    (participant : Participant) (state : Option String)
    (raise_error_if_not_found : Bool) (now : Nat) :
    Except String (DB × Participant) :=
  if participant.name = "SYSTEM" then
    Except.ok (db, participant)
  else
    let db' := { db with participants := db.participants.map fun r =>
      if r.id = participant.id then
        { r with state := state, updated_timestamp := some now }
      else r }
    let rowcount := (db.participants.filter fun r => r.id = participant.id).length
    if rowcount = 1 then
      Except.ok (db', participant.withState state)
    else if raise_error_if_not_found then
      Except.error "ParticipantNotFoundError"
    else Except.ok (db', participant)

/-- Method ParticipantRepository.terminate_participant: a no-op for
SYSTEM, otherwise set_participant_state to TERMINATED. -/
def ParticipantRepository.terminate_participant (db : DB)
    (participant : Participant) (raise_error_if_not_found : Bool) (now : Nat) :
    Except String (DB × Participant) :=
  if participant.name = "SYSTEM" then
    Except.ok (db, participant)
  else
    ParticipantRepository.set_participant_state db participant
      (some "TERMINATED") raise_error_if_not_found now

/-- Method ParticipantRepository.activate_participant: a no-op for SYSTEM,
otherwise set_participant_state to ACTIVE. -/
def ParticipantRepository.activate_participant (db : DB)
    (participant : Participant) (raise_error_if_not_found : Bool) (now : Nat) :
    Except String (DB × Participant) :=
  if participant.name = "SYSTEM" then
    Except.ok (db, participant)
  else
    ParticipantRepository.set_participant_state db participant
      (some "ACTIVE") raise_error_if_not_found now

/-! ## Partial update (ParticipantUpdate and ParticipantRepository.update)

A ParticipantUpdate value is modelled after validation: for each
updatable column an outer Option says whether the field was explicitly
set (model_dump(exclude_unset=True) keeps exactly those), the inner value
is what was set (None meaning SQL NULL). updated_by is a required field,
hence always set; updated_timestamp always holds a datetime (the caller's
or the default factory's), with a flag recording whether it was
explicitly set. The relation fields org_units / roles / proxy_of are
model fields without table columns; when set they flow into
update().values(...) and make the UPDATE statement fail. -/

/-- Validated ParticipantUpdate object. -/
structure ParticipantUpdate where
  name : Option (Option String) := none
  display_name : Option (Option String) := none
  description : Option (Option String) := none
  email : Option (Option String) := none
  state : Option (Option String) := none
  external_reference : Option (Option String) := none
  hashed_password : Option (Option String) := none
  update_count : Option (Option Int) := none
  updated_by : String
  updated_timestamp : Nat
  updated_timestamp_set : Bool := false
  org_units : Option (Option (List Participant)) := none
  roles : Option (Option (List Participant)) := none
  proxy_of : Option (Option (List Participant)) := none

/-- Written value of one nullable column: the explicitly set value, or the
stored one. -/
def updField {α : Type} (u : Option (Option α)) (old : Option α) : Option α :=
  match u with
  | some v => v
  | none => old

/-- Method ParticipantRepository.update. Steps, in source order: dump the
explicitly set fields, always adding updated_timestamp (the code's
expression pati_update.updated_timestamp or datetime.now(UTC) always
yields the left operand, a datetime being truthy); one_or_none SELECT by
id; execute the UPDATE, which fails on a set relation field (no such
column), on NULL written into a NOT NULL column (name, display_name,
update_count), or on a uniqueness violation of participants_ak1/ak2;
finally refresh and re-validate the row. -/
def ParticipantRepository.update (db : DB) (id_ : Nat) (u : ParticipantUpdate)
    (raise_error_if_not_found : Bool := false) :
    Except String (DB × Option Participant) :=
  match db.participants.filter fun r => r.id = id_ with
  | [] =>
      if raise_error_if_not_found then
        Except.error "ParticipantNotFoundError"
      else Except.ok (db, none)
  | [row] =>
      if u.org_units.isSome || u.roles.isSome || u.proxy_of.isSome then
        Except.error "CompileError: unconsumed column names"
      else
        let newName := updField u.name (some row.name)
        let newDisplay := updField u.display_name (some row.display_name)
        let newCount := updField u.update_count (some row.update_count)
        match newName, newDisplay, newCount with
        | some n, some d, some c =>
            let row' : ParticipantRow :=
              { row with
                name := n
                display_name := d
                description := updField u.description row.description
                email := updField u.email row.email
                state := updField u.state row.state
                external_reference :=
                  updField u.external_reference row.external_reference
                hashed_password :=
                  updField u.hashed_password row.hashed_password
                update_count := c
                updated_by := some u.updated_by
                updated_timestamp := some u.updated_timestamp }
            if db.participants.any fun r =>
                r.id ≠ id_ ∧ r.participant_type = row'.participant_type ∧
                  (r.name = row'.name ∨ r.display_name = row'.display_name) then
              Except.error "IntegrityError: UNIQUE constraint participants_ak"
            else do
              let db' := { db with participants := db.participants.map fun r =>
                if r.id = id_ then row' else r }
              let q ← toParticipant row'
              Except.ok (db', some q)
        | _, _, _ => Except.error "IntegrityError: NOT NULL constraint"
  | _ => Except.error "MultipleResultsFound"

/-! ## Creation (ParticipantCreate and ParticipantRepository.create) -/

/-- Validation of the name field by ParticipantCreate.validate_name:
pydantic first strips and length-checks, the validator then rejects a
truthy value failing is_valid_name and uppercases the result. -/
def participantCreateName (raw : String) : Except String String :=
  let s := pyStrip raw
  if s.length ≤ 30 then
    if s ≠ "" && !(is_valid_name s) then Except.error "Invalid name"
    else Except.ok (pyUpper s)
  else Except.error "name: max_length exceeded"

/-- Validated ParticipantCreate object. -/
structure ParticipantCreate where
  name : String
  display_name : String
  description : Option String := none
  email : Option String := none
  participant_type : String
  state : String
  external_reference : Option String := none
  hashed_password : Option String := none
  created_by : String
  created_timestamp : Nat := 0
deriving DecidableEq, Repr

/-- Construction ParticipantCreate(...): the relevant validator chains of
ParticipantBase plus validate_name; the state chain turns None into
ACTIVE before the literal check. -/
def mkParticipantCreate (name display_name participant_type : String)
    (state : Option String) (created_by : String) (created_timestamp : Nat) :
    Except String ParticipantCreate := do
  let n ← participantCreateName name
  let d := pyStrip display_name
  if d.length ≤ 60 then
    let cb := pyStrip created_by
    if cb.length ≤ 30 then
      let st ← validateState state
      let pt ← validateParticipantType participant_type
      Except.ok
        { name := n
          display_name := d
          participant_type := pt
          state := st
          created_by := pyUpper cb
          created_timestamp := created_timestamp }
    else Except.error "created_by: max_length exceeded"
  else Except.error "display_name: max_length exceeded"

/-- Fresh autoincrement id for an insert into participants. -/
def freshParticipantId (db : DB) : Nat :=
  (db.participants.map (fun r => r.id)).foldr Nat.max 0 + 1

/-- Method ParticipantRepository.create: uppercases the name once more,
inserts the row (flush enforces the (participant_type, name) and
(participant_type, display_name) uniqueness constraints), then refreshes
and validates the stored row into a Participant. -/
def ParticipantRepository.create (db : DB) (create : ParticipantCreate) :
    Except String (DB × Participant) :=
  let create := { create with name := pyUpper create.name }
  let row : ParticipantRow :=
    { id := freshParticipantId db
      name := create.name
      display_name := create.display_name
      description := create.description
      email := create.email
      participant_type := create.participant_type
      state := some create.state
      external_reference := create.external_reference
      hashed_password := create.hashed_password
      created_by := create.created_by
      created_timestamp := some create.created_timestamp }
  if db.participants.any fun r =>
      r.participant_type = row.participant_type ∧
        (r.name = row.name ∨ r.display_name = row.display_name) then
    Except.error "IntegrityError: UNIQUE constraint participants_ak"
  else do
    let p ← toParticipant row
    Except.ok ({ db with participants := db.participants ++ [row] }, p)

/-! ## Role hierarchy traversal (user_permissions.py)

The policy engine's role manager is modelled as a finite association list
from a role to its directly assigned parent roles; get_roles of an
unknown role is empty. The recursion of get_all_roles (visit a role,
mark it seen, recurse into its sub roles) is written with its explicit
depth-first stack, prepending the sub roles; the seen set and the visit
order are exactly those of the source recursion. -/

/-- Role manager graph: role to directly assigned roles of that role. -/
def RoleGraph : Type := List (String × List String)

/-- Function roles_of_role via the role manager's get_roles. -/
def rolesOfRole (g : RoleGraph) (role : String) : List String :=
  match g.find? fun p => p.1 = role with
  | some p => p.2
  | none => []

/-- Roles having an entry in the role manager. -/
def roleKeys (g : RoleGraph) : Finset String := (g.map fun p => p.1).toFinset

/-- A role without an entry has no sub roles. -/
theorem rolesOfRole_eq_nil_of_not_mem (g : RoleGraph) (role : String)
    (hk : role ∉ roleKeys g) : rolesOfRole g role = [] := by
  unfold rolesOfRole
  rw [List.find?_eq_none.2]
  intro x hx hpx
  exact hk (by
    simp only [roleKeys, List.mem_toFinset, List.mem_map]
    exact ⟨x, hx, by simpa using hpx⟩)

/-- Depth-first traversal of get_all_roles with its explicit stack: pop a
role, skip it when seen, otherwise mark it and push its sub roles. The
seen set bounds the recursion: every step either strictly grows the seen
set inside the finite key set or shortens the stack. -/
def dfsVisit (g : RoleGraph) : List String → Finset String → Finset String
  | [], seen => seen
  | role :: rest, seen =>
    if h : role ∈ seen then dfsVisit g rest seen
    else dfsVisit g (rolesOfRole g role ++ rest) (insert role seen)
termination_by stack seen => ((roleKeys g \ seen).card, stack.length)
decreasing_by
  · apply Prod.Lex.right
    simp
  · by_cases hk : role ∈ roleKeys g
    · apply Prod.Lex.left
      apply Finset.card_lt_card
      rw [Finset.ssubset_iff_of_subset
        (Finset.sdiff_subset_sdiff (le_refl _) (Finset.subset_insert _ _))]
      exact ⟨role, Finset.mem_sdiff.2 ⟨hk, h⟩,
        fun hcon => (Finset.mem_sdiff.1 hcon).2 (Finset.mem_insert_self _ _)⟩
    · have hnil : rolesOfRole g role = [] :=
        rolesOfRole_eq_nil_of_not_mem g role hk
      have heq : roleKeys g \ insert role seen = roleKeys g \ seen := by
        ext x
        simp only [Finset.mem_sdiff, Finset.mem_insert]
        constructor
        · rintro ⟨hx, hn⟩
          exact ⟨hx, fun hs => hn (Or.inr hs)⟩
        · rintro ⟨hx, hn⟩
          refine ⟨hx, fun hs => ?_⟩
          rcases hs with rfl | hs
          · exact hk hx
          · exact hn hs
      rw [hnil, heq]
      apply Prod.Lex.right
      simp

/-- Function get_all_roles(role, seen): recursive descent from one role,
accumulating into the seen set. -/
def get_all_roles (g : RoleGraph) (role : String) (seen : Finset String) :
    Finset String :=
  dfsVisit g [role] seen

/-- Function get_all_roles_of_roles: fold get_all_roles over the given
roles with one shared accumulator set. -/
def get_all_roles_of_roles (g : RoleGraph) (roles : List String) :
    Finset String :=
  roles.foldl (fun all_roles role => get_all_roles g role all_roles) ∅

/-- One edge of the role-of-role hierarchy. -/
def RoleStep (g : RoleGraph) (a b : String) : Prop := b ∈ rolesOfRole g a

instance (g : RoleGraph) (a b : String) : Decidable (RoleStep g a b) := by
  unfold RoleStep
  infer_instance

/-! ## Session user, policy enforcer and the administrator checks
(session_user.py, user_permissions.py, common.py, app.py) -/

/-- Dataclass SessionUser (session_user.py). -/
structure SessionUser where
  username : String := ""
  display_name : String := ""
  department : String := ""
  email : Option String := none
  title : Option String := none
  roles : Finset String := ∅
  effective_roles : Finset String := ∅
  org_units : Finset String := ∅
deriving DecidableEq

/-- Casbin enforcer state: the user-to-role assignments fed to it. -/
structure Enforcer where
  assignments : List (String × String)
deriving DecidableEq, Repr

/-- Casbin get_roles_for_user: the directly assigned roles of a user. -/
def Enforcer.get_roles_for_user (e : Enforcer) (user : String) : List String :=
  (e.assignments.filter fun p => p.1 = user).map fun p => p.2

/-- Casbin add_role_for_user: records an assignment once. -/
def Enforcer.add_role_for_user (e : Enforcer) (user role : String) : Enforcer :=
  if (user, role) ∈ e.assignments then e
  else { assignments := e.assignments ++ [(user, role)] }

/-- Function add_roles_to_policy_enforcer (app.py and
user_permissions.py): add every given role for the user. -/
def add_roles_to_policy_enforcer (e : Enforcer) (username : String)
    (roles : List String) : Enforcer :=
  roles.foldl (fun acc r => acc.add_role_for_user username r) e

/-- Function user_is_administrator (user_permissions.py): true when
ADMINISTRATOR is in the session user's roles, else the username (the
argument when truthy, the session user's otherwise) is looked up in the
enforcer's assignments. -/
def user_is_administrator (session_user : SessionUser) (enforcer : Enforcer)
    (username : Option String := none) : Bool :=
  if "ADMINISTRATOR" ∈ session_user.roles then true
  else
    let u := match username with
      | none => session_user.username
      | some s => if s = "" then session_user.username else s
    (u != "") && (Enforcer.get_roles_for_user enforcer u).contains "ADMINISTRATOR"

/-- Function is_administrator (common.py): the username falls back to the
session state's username when falsy; ADMINISTRATOR among the session
current_user's roles wins, else the enforcer's assignments decide. -/
def is_administrator (st_username : Option String)
    (current_user_roles : Option (Finset String)) (enforcer : Enforcer)
    (username : Option String := none) : Bool :=
  let uname : Option String := match username with
    | none => st_username
    | some s => if s = "" then st_username else some s
  let cu : Bool := match current_user_roles with
    | some rs => decide ("ADMINISTRATOR" ∈ rs)
    | none => false
  if cu then true
  else
    match uname with
    | none => false
    | some s =>
        if s = "" then false
        else (Enforcer.get_roles_for_user enforcer s).contains "ADMINISTRATOR"

/-- Lines 144-155 of app.py, update_user_session_state: the session's
current_user roles are the one-hop effective roles computed from the
participant graph (empty when the participant has no hydrated
relations). -/
def update_user_session_state_roles (db : DB) (pati : Participant) :
    Except String (Finset String) :=
  if !pati.roles.isEmpty || !pati.org_units.isEmpty || !pati.proxy_of.isEmpty then
    (ParticipantRepository.compute_effective_roles db pati).map fun r => r.2
  else Except.ok ∅

/-- Lines 150-152 of app.py: the session's effective_roles are the
role-hierarchy closure of those roles; the set is iterated in sorted
order (python's set iteration order is unspecified and immaterial
here). -/
def session_effective_roles (g : RoleGraph) (roles : Finset String) :
    Finset String :=
  get_all_roles_of_roles g (roles.sort (· ≤ ·))

/-- Lines 216-224 of app.py, check_user: after a successful login the
session's effective roles are added to the policy enforcer for the
participant's name. -/
def enforcer_after_login (e : Enforcer) (g : RoleGraph) (db : DB)
    (pati : Participant) : Except String Enforcer := do
  let roles ← update_user_session_state_roles db pati
  Except.ok (add_roles_to_policy_enforcer e pati.name
    ((session_effective_roles g roles).sort (· ≤ ·)))

/-! ## Helper definitions and concrete scenario instances -/

/-- Placeholder participant for the total variant of toParticipant. -/
def defaultParticipant : Participant :=
  Participant.mk 0 "" "" none none "" none none none 0 "" 0 none none [] [] [] [] ∅

/-- Total variant of toParticipant, meaningful on rows that validate. -/
def toParticipantD (row : ParticipantRow) : Participant :=
  match toParticipant row with
  | .ok q => q
  | .error _ => defaultParticipant

/-- Claim side of C2, following the spec's wording: n is the name of a
role granted via a GRANT edge to the participant with id pid (the name as
it appears on the validated target participant). -/
def grantedToName (db : DB) (pid : Nat) (n : String) : Prop :=
  ∃ rel ∈ db.relations, rel.pati1_id = pid ∧ rel.relation_type = "GRANT" ∧
    ∃ p2 ∈ db.participants, p2.id = rel.pati2_id ∧
      ∃ q, toParticipant p2 = Except.ok q ∧ Participant.name q = n

/-- The row produced by a successful UPDATE: explicitly set fields take
their new values (n, d, c being the NOT NULL column values), unset fields
keep the stored ones, updated_by and updated_timestamp are always
stamped. -/
def rowAfterUpdate (row : ParticipantRow) (u : ParticipantUpdate)
    (n d : String) (c : Int) : ParticipantRow :=
  { row with
    name := n
    display_name := d
    description := updField u.description row.description
    email := updField u.email row.email
    state := updField u.state row.state
    external_reference := updField u.external_reference row.external_reference
    hashed_password := updField u.hashed_password row.hashed_password
    update_count := c
    updated_by := some u.updated_by
    updated_timestamp := some u.updated_timestamp }

/-- End-to-end name of a participant created with the given raw name into
an empty database (fixed innocuous values for the other mandatory
fields): ParticipantCreate validation, repository create, and the
validation of the returned row. -/
def createWithName (s : String) : Except String Participant := do
  let c ← mkParticipantCreate s "Some user" "HUMAN" none "TESTER" 0
  (ParticipantRepository.create (DB.mk [] []) c).map fun r => r.2

/-- Session roles as stored at login (empty when the computation failed;
on the scenarios considered it never fails). -/
def sessionRolesOrEmpty (e : Except String (Finset String)) : Finset String :=
  match e with
  | .ok s => s
  | .error _ => ∅

/-! Concrete scenario instances used by the witnesses and
counterexamples. -/

/-- Active source participant row. -/
def rowC1src : ParticipantRow :=
  { id := 1, name := "P1", display_name := "P one",
    participant_type := "HUMAN", state := some "ACTIVE",
    created_by := "SYSTEM" }

/-- Terminated target participant row. -/
def rowC1tgt : ParticipantRow :=
  { id := 2, name := "R1", display_name := "R one",
    participant_type := "ROLE", state := some "TERMINATED",
    created_by := "SYSTEM" }

/-- Store with an active source holding a GRANT edge to a terminated
target. -/
def dbC1 : DB :=
  { participants := [rowC1src, rowC1tgt]
    relations :=
      [ { id := 1, pati1_id := 1, pati2_id := 2,
          relation_type := "GRANT", created_by := "SYSTEM" } ] }

/-- Store for the effective-roles scenario: human H1 (id 1) member of org
O1 (id 2); O1 granted RX (id 3); O1 member of org O3 (id 4); O3 granted
RY (id 5); H1 proxy of H2 (id 6); H2 granted RZ (id 7). -/
def dbC2 : DB :=
  { participants :=
      [ { id := 1, name := "H1", display_name := "H one",
          participant_type := "HUMAN", state := some "ACTIVE",
          created_by := "SYSTEM" },
        { id := 2, name := "O1", display_name := "O one",
          participant_type := "ORG_UNIT", state := some "ACTIVE",
          created_by := "SYSTEM" },
        { id := 3, name := "RX", display_name := "R x",
          participant_type := "ROLE", state := some "ACTIVE",
          created_by := "SYSTEM" },
        { id := 4, name := "O3", display_name := "O three",
          participant_type := "ORG_UNIT", state := some "ACTIVE",
          created_by := "SYSTEM" },
        { id := 5, name := "RY", display_name := "R y",
          participant_type := "ROLE", state := some "ACTIVE",
          created_by := "SYSTEM" },
        { id := 6, name := "H2", display_name := "H two",
          participant_type := "HUMAN", state := some "ACTIVE",
          created_by := "SYSTEM" },
        { id := 7, name := "RZ", display_name := "R z",
          participant_type := "ROLE", state := some "ACTIVE",
          created_by := "SYSTEM" } ]
    relations :=
      [ { id := 1, pati1_id := 1, pati2_id := 2,
          relation_type := "MEMBER OF", created_by := "SYSTEM" },
        { id := 2, pati1_id := 2, pati2_id := 3,
          relation_type := "GRANT", created_by := "SYSTEM" },
        { id := 3, pati1_id := 2, pati2_id := 4,
          relation_type := "MEMBER OF", created_by := "SYSTEM" },
        { id := 4, pati1_id := 4, pati2_id := 5,
          relation_type := "GRANT", created_by := "SYSTEM" },
        { id := 5, pati1_id := 1, pati2_id := 6,
          relation_type := "PROXY OF", created_by := "SYSTEM" },
        { id := 6, pati1_id := 6, pati2_id := 7,
          relation_type := "GRANT", created_by := "SYSTEM" } ] }

/-- Hydrated org unit O1 of the scenario. -/
def pOrgC2 : Participant :=
  Participant.mk 2 "O1" "O one" none none "ORG_UNIT" (some "ACTIVE")
    none none 0 "SYSTEM" 0 none none [] [] [] [] ∅

/-- Hydrated proxy target H2 of the scenario. -/
def pProxyC2 : Participant :=
  Participant.mk 6 "H2" "H two" none none "HUMAN" (some "ACTIVE")
    none none 0 "SYSTEM" 0 none none [] [] [] [] ∅

/-- Hydrated human H1: member of O1, proxy of H2, no direct roles. -/
def pC2 : Participant :=
  Participant.mk 1 "H1" "H one" none none "HUMAN" (some "ACTIVE")
    none none 0 "SYSTEM" 0 none none [pOrgC2] [] [pProxyC2] [] ∅

/-- Store already holding the GRANT edge 1 -> 2. -/
def dbC3 : DB :=
  { participants := [rowC1src,
      { id := 2, name := "R1", display_name := "R one",
        participant_type := "ROLE", state := some "ACTIVE",
        created_by := "SYSTEM" }]
    relations :=
      [ { id := 1, pati1_id := 1, pati2_id := 2,
          relation_type := "GRANT", created_by := "SYSTEM" } ] }

/-- Duplicate of the edge already stored in dbC3. -/
def candC3 : ParticipantRelationCreate :=
  { pati1_id := 1, pati2_id := 2, relation_type := "GRANT",
    created_by := "TESTER", created_timestamp := 0 }

/-- Store for the administrator scenario: H1 (id 1, no direct roles)
member of O1 (id 2), O1 granted the role named ADMINISTRATOR (id 3). -/
def dbC4 : DB :=
  { participants :=
      [ { id := 1, name := "H1", display_name := "H one",
          participant_type := "HUMAN", state := some "ACTIVE",
          created_by := "SYSTEM" },
        { id := 2, name := "O1", display_name := "O one",
          participant_type := "ORG_UNIT", state := some "ACTIVE",
          created_by := "SYSTEM" },
        { id := 3, name := "ADMINISTRATOR", display_name := "Admin role",
          participant_type := "ROLE", state := some "ACTIVE",
          created_by := "SYSTEM" } ]
    relations :=
      [ { id := 1, pati1_id := 1, pati2_id := 2,
          relation_type := "MEMBER OF", created_by := "SYSTEM" },
        { id := 2, pati1_id := 2, pati2_id := 3,
          relation_type := "GRANT", created_by := "SYSTEM" } ] }

/-- Hydrated org unit O1 of the administrator scenario. -/
def pOrgC4 : Participant :=
  Participant.mk 2 "O1" "O one" none none "ORG_UNIT" (some "ACTIVE")
    none none 0 "SYSTEM" 0 none none [] [] [] [] ∅

/-- Hydrated H1 of the administrator scenario: member of O1, no direct
roles, no proxies. -/
def pC4 : Participant :=
  Participant.mk 1 "H1" "H one" none none "HUMAN" (some "ACTIVE")
    none none 0 "SYSTEM" 0 none none [pOrgC4] [] [] [] ∅

/-- Session user as populated by check_user / update_user_session_state
for H1: the session roles are the computed one-hop effective roles. -/
def suC4 : SessionUser :=
  { username := "H1"
    roles := sessionRolesOrEmpty (update_user_session_state_roles dbC4 pC4) }

/-- Enforcer with no assignments. -/
def enfC4 : Enforcer := { assignments := [] }

/-- A participant named SYSTEM. -/
def pSystemC5 : Participant :=
  Participant.mk 10 "SYSTEM" "System user" none none "SYSTEM"
    (some "ACTIVE") none none 0 "SYSTEM" 0 none none [] [] [] [] ∅

/-- Stored row of the participant being updated. -/
def rowC6 : ParticipantRow :=
  { id := 1, name := "U1", display_name := "U one",
    participant_type := "HUMAN", state := some "ACTIVE",
    description := some "old description", email := some "u@example.com",
    created_by := "SYSTEM" }

/-- Store holding only that row. -/
def dbC6 : DB := { participants := [rowC6], relations := [] }

/-- Partial update setting only display_name (plus the required
updated_by and a caller supplied timestamp). -/
def updC6 : ParticipantUpdate :=
  { display_name := some (some "X"), updated_by := "ADMIN",
    updated_timestamp := 5, updated_timestamp_set := true }

/-- Update whose roles field was explicitly set. -/
def updC6bad : ParticipantUpdate :=
  { roles := some (some []), updated_by := "ADMIN", updated_timestamp := 5 }

/-- Store for the exists scenario: one active and one terminated
human. -/
def dbC7 : DB :=
  { participants :=
      [ { id := 1, name := "U1", display_name := "U one",
          participant_type := "HUMAN", state := some "ACTIVE",
          created_by := "SYSTEM" },
        { id := 2, name := "U2", display_name := "U two",
          participant_type := "HUMAN", state := some "TERMINATED",
          created_by := "SYSTEM" } ]
    relations := [] }

/-- Row whose stored state is the empty string. -/
def rowC10 : ParticipantRow :=
  { id := 1, name := "U1", display_name := "U one",
    participant_type := "HUMAN", state := some "",
    created_by := "SYSTEM" }

/-! ## Lemmas about the depth-first role closure -/

/-- The accumulator only grows. -/
theorem subset_dfsVisit (g : RoleGraph) (stack : List String)
    (seen : Finset String) : seen ⊆ dfsVisit g stack seen := by
  induction stack, seen using dfsVisit.induct g with
  | case1 seen => simp [dfsVisit]
  | case2 role rest seen h ih =>
      rw [dfsVisit]
      simpa [h] using ih
  | case3 role rest seen h ih =>
      rw [dfsVisit]
      simp only [h, dite_false]
      exact (Finset.subset_insert _ _).trans ih

/-- Every role on the stack ends up in the result. -/
theorem mem_dfsVisit_of_mem_stack (g : RoleGraph) (stack : List String)
    (seen : Finset String) (x : String) (hx : x ∈ stack) :
    x ∈ dfsVisit g stack seen := by
  induction stack, seen using dfsVisit.induct g with
  | case1 seen => simp at hx
  | case2 role rest seen h ih =>
      rw [dfsVisit]
      simp only [h, dite_true]
      rcases List.mem_cons.1 hx with rfl | hx
      · exact subset_dfsVisit g rest seen h
      · exact ih hx
  | case3 role rest seen h ih =>
      rw [dfsVisit]
      simp only [h, dite_false]
      rcases List.mem_cons.1 hx with rfl | hx
      · exact subset_dfsVisit g _ _ (Finset.mem_insert_self _ _)
      · exact ih (List.mem_append_right _ hx)

/-- The result is closed under sub-role edges of roles not already seen
at the call: the moment such a role enters the result it has also pushed
all its sub roles. -/
theorem dfsVisit_closed (g : RoleGraph) (stack : List String)
    (seen : Finset String) (x : String) (hx : x ∈ dfsVisit g stack seen)
    (hxs : x ∉ seen) (y : String) (hy : y ∈ rolesOfRole g x) :
    y ∈ dfsVisit g stack seen := by
  induction stack, seen using dfsVisit.induct g with
  | case1 seen =>
      rw [dfsVisit] at hx
      exact absurd hx hxs
  | case2 role rest seen h ih =>
      rw [dfsVisit] at hx ⊢
      simp only [h, dite_true] at hx ⊢
      exact ih hx hxs
  | case3 role rest seen h ih =>
      rw [dfsVisit] at hx ⊢
      simp only [h, dite_false] at hx ⊢
      by_cases hxr : x = role
      · subst hxr
        exact mem_dfsVisit_of_mem_stack g _ _ y
          (List.mem_append_left _ hy)
      · exact ih hx (by
          simp only [Finset.mem_insert, not_or]
          exact ⟨hxr, hxs⟩)

/-- Any property preserved along sub-role edges and true on the stack and
the accumulator holds on the whole result. -/
theorem dfsVisit_sound (g : RoleGraph) (P : String → Prop)
    (hstep : ∀ a, P a → ∀ b ∈ rolesOfRole g a, P b)
    (stack : List String) (seen : Finset String)
    (hstack : ∀ a ∈ stack, P a) (hseen : ∀ a ∈ seen, P a) :
    ∀ x ∈ dfsVisit g stack seen, P x := by
  induction stack, seen using dfsVisit.induct g with
  | case1 seen =>
      intro x hx
      rw [dfsVisit] at hx
      exact hseen x hx
  | case2 role rest seen h ih =>
      intro x hx
      rw [dfsVisit] at hx
      simp only [h, dite_true] at hx
      exact ih (fun a ha => hstack a (List.mem_cons_of_mem _ ha)) hseen x hx
  | case3 role rest seen h ih =>
      intro x hx
      rw [dfsVisit] at hx
      simp only [h, dite_false] at hx
      have hrole : P role := hstack role (List.mem_cons_self _ _)
      refine ih ?_ ?_ x hx
      · intro a ha
        rcases List.mem_append.1 ha with ha | ha
        · exact hstep role hrole a ha
        · exact hstack a (List.mem_cons_of_mem _ ha)
      · intro a ha
        rcases Finset.mem_insert.1 ha with rfl | ha
        · exact hrole
        · exact hseen a ha

/-- Processing a concatenated stack processes the second part with the
accumulator produced by the first. -/
theorem dfsVisit_append (g : RoleGraph) (stack : List String)
    (seen : Finset String) :
    ∀ rest : List String,
      dfsVisit g (stack ++ rest) seen = dfsVisit g rest (dfsVisit g stack seen) := by
  induction stack, seen using dfsVisit.induct g with
  | case1 seen =>
      intro rest
      rw [dfsVisit]
      simp
  | case2 role rest seen h ih =>
      intro l
      rw [List.cons_append, dfsVisit, dfsVisit]
      simp only [h, dite_true]
      exact ih l
  | case3 role rest seen h ih =>
      intro l
      rw [List.cons_append, dfsVisit]
      conv_rhs => rw [dfsVisit]
      simp only [h, dite_false]
      rw [← List.append_assoc]
      exact ih l

/-- The fold of get_all_roles over a role list is the single traversal of
that list as the initial stack. -/
theorem get_all_roles_of_roles_eq_dfsVisit (g : RoleGraph) :
    ∀ (roles : List String) (seen : Finset String),
      roles.foldl (fun all_roles role => get_all_roles g role all_roles) seen =
        dfsVisit g roles seen := by
  intro roles
  induction roles with
  | nil =>
      intro seen
      rw [dfsVisit]
      rfl
  | cons r rest ih =>
      intro seen
      rw [List.foldl_cons]
      rw [ih (get_all_roles g r seen)]
      unfold get_all_roles
      rw [← dfsVisit_append]
      rfl

/-- C9: get_all_roles_of_roles(roles) terminates on every finite role
hierarchy graph, cycles included (its definition above is accepted by
well-founded recursion on the seen set, which mirrors the source's cycle
protection), and its result contains exactly the role names reachable
from the given roles along role-of-role edges. -/
theorem get_all_roles_of_roles_reachable (g : RoleGraph) (roles : List String)
    (x : String) :
    x ∈ get_all_roles_of_roles g roles ↔
      ∃ r ∈ roles, Relation.ReflTransGen (RoleStep g) r x := by
  unfold get_all_roles_of_roles
  rw [get_all_roles_of_roles_eq_dfsVisit]
  constructor
  · intro hx
    refine dfsVisit_sound g (fun z => ∃ r ∈ roles, Relation.ReflTransGen (RoleStep g) r z)
      ?_ roles ∅ ?_ ?_ x hx
    · rintro a ⟨r, hr, hra⟩ b hb
      exact ⟨r, hr, hra.tail hb⟩
    · intro a ha
      exact ⟨a, ha, Relation.ReflTransGen.refl⟩
    · intro a ha
      simp at ha
  · rintro ⟨r, hr, hreach⟩
    induction hreach with
    | refl => exact mem_dfsVisit_of_mem_stack g roles ∅ r hr
    | tail hab hbc ih =>
        exact dfsVisit_closed g roles ∅ _ ih (Finset.not_mem_empty _) _ hbc

/-! ## Character and name lemmas -/

/-- Char order is the order of the code points. -/
theorem charLe_iff (a b : Char) : a ≤ b ↔ a.toNat ≤ b.toNat := Iff.rfl

/-- Char equality is equality of the code points. -/
theorem char_eq_iff_toNat (a b : Char) : a = b ↔ a.toNat = b.toNat := by
  constructor
  · rintro rfl
    rfl
  · intro h
    exact Char.ext (UInt32.ext h)

/-- Code point of Char.ofNat at a valid code point. -/
theorem charOfNat_toNat (n : Nat) (hv : Nat.isValidChar n) :
    (Char.ofNat n).toNat = n := by
  unfold Char.ofNat
  rw [dif_pos hv]
  rfl

/-- Code point of Char.toUpper. -/
theorem toUpper_toNat (c : Char) :
    c.toUpper.toNat =
      if 97 ≤ c.toNat ∧ c.toNat ≤ 122 then c.toNat - 32 else c.toNat := by
  unfold Char.toUpper
  split
  · next h =>
      rw [if_pos ⟨h.1, h.2⟩]
      exact charOfNat_toNat _ (Or.inl (by omega))
  · next h =>
      rw [if_neg fun hc => h ⟨hc.1, hc.2⟩]

/-- Uppercasing twice is uppercasing once. -/
theorem toUpper_toUpper (c : Char) : c.toUpper.toUpper = c.toUpper := by
  have h := toUpper_toNat c
  rw [char_eq_iff_toNat, toUpper_toNat]
  by_cases hc : 97 ≤ c.toNat ∧ c.toNat ≤ 122
  · rw [if_pos hc] at h
    rw [if_neg (by omega)]
  · rw [if_neg hc] at h
    rw [if_neg (by omega)]

/-- Arithmetic form of the head character class. -/
theorem nameHeadOk_iff (c : Char) :
    nameHeadOk c = true ↔
      (97 ≤ c.toNat ∧ c.toNat ≤ 122) ∨ (65 ≤ c.toNat ∧ c.toNat ≤ 90) := by
  simp [nameHeadOk, Bool.or_eq_true, Bool.and_eq_true, decide_eq_true_eq,
    charLe_iff]

/-- Arithmetic form of the tail character class. -/
theorem nameTailOk_iff (c : Char) :
    nameTailOk c = true ↔
      (97 ≤ c.toNat ∧ c.toNat ≤ 122) ∨ (65 ≤ c.toNat ∧ c.toNat ≤ 90) ∨
      (48 ≤ c.toNat ∧ c.toNat ≤ 57) ∨ c.toNat = 95 ∨ c.toNat = 45 := by
  simp only [nameTailOk, nameHeadOk_iff, Bool.or_eq_true, Bool.and_eq_true,
    decide_eq_true_eq, charLe_iff, char_eq_iff_toNat]
  have h1 : ('0' : Char).toNat = 48 := rfl
  have h2 : ('9' : Char).toNat = 57 := rfl
  have h3 : ('_' : Char).toNat = 95 := rfl
  have h4 : ('-' : Char).toNat = 45 := rfl
  rw [h1, h2, h3, h4]
  omega

/-- Arithmetic form of the python whitespace class. -/
theorem pyWhitespace_iff (c : Char) :
    pyWhitespace c = true ↔
      c.toNat = 32 ∨ c.toNat = 9 ∨ c.toNat = 10 ∨ c.toNat = 13 ∨
      c.toNat = 11 ∨ c.toNat = 12 := by
  simp only [pyWhitespace, Bool.or_eq_true, decide_eq_true_eq,
    char_eq_iff_toNat]
  have h1 : (' ' : Char).toNat = 32 := rfl
  have h2 : ('\t' : Char).toNat = 9 := rfl
  have h3 : ('\n' : Char).toNat = 10 := rfl
  have h4 : ('\r' : Char).toNat = 13 := rfl
  have h5 : ('\x0b' : Char).toNat = 11 := rfl
  have h6 : ('\x0c' : Char).toNat = 12 := rfl
  rw [h1, h2, h3, h4, h5, h6]
  omega

/-- Name characters are not whitespace. -/
theorem not_pyWhitespace_of_nameTailOk (c : Char) (h : nameTailOk c = true) :
    pyWhitespace c = false := by
  rw [nameTailOk_iff] at h
  rw [← Bool.not_eq_true, pyWhitespace_iff]
  omega

/-- The head class sits inside the tail class. -/
theorem nameTailOk_of_nameHeadOk (c : Char) (h : nameHeadOk c = true) :
    nameTailOk c = true := by
  rw [nameHeadOk_iff] at h
  rw [nameTailOk_iff]
  tauto

/-- The head class is closed under uppercasing. -/
theorem nameHeadOk_toUpper (c : Char) (h : nameHeadOk c = true) :
    nameHeadOk c.toUpper = true := by
  rw [nameHeadOk_iff] at h ⊢
  rw [toUpper_toNat]
  split <;> omega

/-- The tail class is closed under uppercasing. -/
theorem nameTailOk_toUpper (c : Char) (h : nameTailOk c = true) :
    nameTailOk c.toUpper = true := by
  rw [nameTailOk_iff] at h ⊢
  rw [toUpper_toNat]
  split <;> omega

/-- Dropping a failing predicate drops nothing. -/
theorem dropWhile_eq_self_of_forall {α : Type} (p : α → Bool) (l : List α)
    (h : ∀ c ∈ l, p c = false) : l.dropWhile p = l := by
  cases l with
  | nil => rfl
  | cons c cs => simp [List.dropWhile_cons, h c (by simp)]

/-- Python strip is the identity on whitespace-free strings. -/
theorem pyStripList_eq_self (l : List Char)
    (h : ∀ c ∈ l, pyWhitespace c = false) : pyStripList l = l := by
  unfold pyStripList
  rw [dropWhile_eq_self_of_forall _ _ h,
    dropWhile_eq_self_of_forall _ _ (by simpa using h), List.reverse_reverse]

/-- Every character of a core-matching name is in the tail class. -/
theorem nameCoreMatch_chars (l : List Char) (h : nameCoreMatch l = true) :
    ∀ c ∈ l, nameTailOk c = true := by
  cases l with
  | nil => simp [nameCoreMatch] at h
  | cons c cs =>
      simp only [nameCoreMatch, Bool.and_eq_true, List.all_eq_true,
        decide_eq_true_eq] at h
      intro x hx
      rcases List.mem_cons.1 hx with rfl | hx
      · exact nameTailOk_of_nameHeadOk _ h.1.1.1
      · exact h.1.1.2 x hx

/-- The core pattern is closed under uppercasing. -/
theorem nameCoreMatch_map_toUpper (l : List Char)
    (h : nameCoreMatch l = true) :
    nameCoreMatch (l.map Char.toUpper) = true := by
  cases l with
  | nil => simp [nameCoreMatch] at h
  | cons c cs =>
      simp only [nameCoreMatch, Bool.and_eq_true, List.all_eq_true,
        decide_eq_true_eq, List.map_cons] at h ⊢
      refine ⟨⟨⟨nameHeadOk_toUpper _ h.1.1.1, ?_⟩, ?_⟩, ?_⟩
      · intro x hx
        rcases List.mem_map.1 hx with ⟨y, hy, rfl⟩
        exact nameTailOk_toUpper _ (h.1.1.2 y hy)
      · simpa using h.1.2
      · simpa using h.2

/-- Uppercasing a string twice is uppercasing it once. -/
theorem pyUpper_pyUpper (s : String) : pyUpper (pyUpper s) = pyUpper s := by
  unfold pyUpper
  apply congrArg String.mk
  rw [List.map_map]
  exact List.map_congr_left fun a _ => toUpper_toUpper a

/-- Python strip is the identity on core-matching names. -/
theorem pyStrip_eq_self_of_core (s : String) (h : nameCoreMatch s.data = true) :
    pyStrip s = s := by
  unfold pyStrip
  rw [pyStripList_eq_self _ fun c hc =>
    not_pyWhitespace_of_nameTailOk c (nameCoreMatch_chars _ h c hc)]

/-- A core-matching name is nonempty. -/
theorem ne_empty_of_core (s : String) (h : nameCoreMatch s.data = true) :
    s ≠ "" := by
  intro he
  subst he
  simp [nameCoreMatch] at h

/-- A core-matching name passes is_valid_name. -/
theorem is_valid_name_of_core (s : String) (h : nameCoreMatch s.data = true) :
    is_valid_name s = true := by
  unfold is_valid_name
  simp [h, ne_empty_of_core s h]

/-- Core-matching names are at most 30 characters long. -/
theorem length_le_of_core (s : String) (h : nameCoreMatch s.data = true) :
    s.length ≤ 30 := by
  show s.data.length ≤ 30
  cases hd : s.data with
  | nil => simp
  | cons c cs =>
      rw [hd] at h
      simp only [nameCoreMatch, Bool.and_eq_true, decide_eq_true_eq] at h
      simp only [List.length_cons]
      omega

/-- On a core-matching raw name, ParticipantCreate's name validator
strips nothing, accepts, and uppercases. -/
theorem participantCreateName_of_core (s : String)
    (h : nameCoreMatch s.data = true) :
    participantCreateName s = Except.ok (pyUpper s) := by
  unfold participantCreateName
  rw [pyStrip_eq_self_of_core s h, if_pos (length_le_of_core s h),
    is_valid_name_of_core s h]
  simp

/-- Validation of the row created with a core-matching (already
uppercased twice) name and the fixed innocuous companion fields. -/
theorem toParticipant_createRow (nm : String)
    (hcore : nameCoreMatch nm.data = true) :
    toParticipant
      { id := 1, name := nm, display_name := "Some user",
        participant_type := "HUMAN", state := some "ACTIVE",
        created_by := "TESTER", created_timestamp := some 0 } =
      Except.ok (Participant.mk 1 (pyUpper nm) "Some user" none none
        "HUMAN" (some "ACTIVE") none none 0 "TESTER" 0 none none
        [] [] [] [] ∅) := by
  unfold toParticipant
  dsimp only
  rw [pyStrip_eq_self_of_core nm hcore, if_pos (length_le_of_core nm hcore)]
  rfl

/-- The end-to-end created name of a core-matching raw name is its
uppercase. -/
theorem createWithName_of_core (s : String) (h : nameCoreMatch s.data = true) :
    createWithName s = Except.ok (Participant.mk 1 (pyUpper s) "Some user"
      none none "HUMAN" (some "ACTIVE") none none 0 "TESTER" 0 none none
      [] [] [] [] ∅) := by
  have hcoreU : nameCoreMatch (pyUpper s).data = true :=
    nameCoreMatch_map_toUpper _ h
  unfold createWithName mkParticipantCreate
  rw [participantCreateName_of_core s h]
  show (ParticipantRepository.create (DB.mk [] [])
    { name := pyUpper s, display_name := "Some user",
      participant_type := "HUMAN", state := "ACTIVE",
      created_by := "TESTER", created_timestamp := 0 }).map (fun r => r.2) =
    _
  unfold ParticipantRepository.create
  dsimp only
  rw [pyUpper_pyUpper]
  have hid : freshParticipantId { participants := [], relations := [] } = 1 :=
    rfl
  rw [hid]
  simp only [List.any_nil, Bool.false_eq_true, if_false]
  rw [toParticipant_createRow (pyUpper s) hcoreU, pyUpper_pyUpper]
  rfl

/-- C8: for every valid name string s (the spec's name pattern, a letter
followed by 1 to 29 letters, digits, underscores or hyphens), creating a
participant with name s and creating one with name s.upper() both store
and return the name s.upper(): the normalization applied by create is
uppercasing and it is idempotent. -/
theorem create_name_normalization_idempotent (s : String)
    (h : nameCoreMatch s.data = true) :
    ∃ p q, createWithName s = Except.ok p ∧
      createWithName (pyUpper s) = Except.ok q ∧
      Participant.name p = pyUpper s ∧ Participant.name q = pyUpper s := by
  have h2 := createWithName_of_core (pyUpper s) (nameCoreMatch_map_toUpper _ h)
  rw [pyUpper_pyUpper] at h2
  exact ⟨_, _, createWithName_of_core s h, h2, rfl, rfl⟩

/-- Witness for C8 at the concrete name "ab". -/
theorem create_name_normalization_idempotent_witness :
    nameCoreMatch ("ab" : String).data = true ∧
      ∃ p q, createWithName "ab" = Except.ok p ∧
        createWithName (pyUpper "ab") = Except.ok q ∧
        Participant.name p = pyUpper "ab" ∧ Participant.name q = pyUpper "ab" :=
  ⟨by decide, create_name_normalization_idempotent "ab" (by decide)⟩

/-! ## State validation lemmas -/

/-- A state accepted by the validation chain is ACTIVE or TERMINATED. -/
theorem validateState_cases (v : Option String) (s : String)
    (h : validateState v = Except.ok s) :
    s = "ACTIVE" ∨ s = "TERMINATED" := by
  unfold validateState at h
  cases v with
  | none =>
      simp only at h
      cases h
      exact Or.inl rfl
  | some s0 =>
      simp only at h
      split at h
      · next hcond =>
          simp only [Bool.or_eq_true, decide_eq_true_eq] at hcond
          cases h
          rcases hcond with hc | hc <;> rw [hc] <;> simp [hc]
      · cases h

/-- The validated state of a participant built from a row is the value
produced by the state chain on the stored state. -/
theorem toParticipant_state (row : ParticipantRow) (q : Participant)
    (h : toParticipant row = Except.ok q) :
    ∃ st, validateState row.state = Except.ok st ∧
      Participant.state q = some st := by
  unfold toParticipant at h
  dsimp only at h
  split at h
  · split at h
    · split at h
      · rcases h1 : validateState row.state with e1 | st1 <;> rw [h1] at h
        · cases h
        · rcases h2 : validateParticipantType row.participant_type
            with e2 | t2 <;> rw [h2] at h
          · cases h
          · rcases h3 : validateOptStr "description" 500 row.description
              with e3 | d3 <;> rw [h3] at h
            · cases h
            · rcases h4 : validateOptStr "email" 200 row.email
                with e4 | m4 <;> rw [h4] at h
              · cases h
              · rcases h5 : validateOptStr "external_reference" 500
                    row.external_reference with e5 | x5 <;> rw [h5] at h
                · cases h
                · rcases h6 : validateOptStr "hashed_password" 100
                      row.hashed_password with e6 | p6 <;> rw [h6] at h
                  · cases h
                  · rcases h7 : validateOptStr "updated_by" 30 row.updated_by
                        with e7 | u7 <;> rw [h7] at h
                    · cases h
                    · rcases h8 : validateCreatedTimestamp
                          row.created_timestamp with e8 | ct <;>
                        rw [h8] at h
                      · cases h
                      · cases h
                        exact ⟨st1, rfl, rfl⟩
      · cases h
    · cases h
  · cases h

/-- C10 (amended): every Participant produced by the model validation
(hence by every repository read or create, all of which construct their
results through it) has a state equal to ACTIVE or TERMINATED, and a
stored NULL state is coerced to ACTIVE; a stored empty (or otherwise
invalid) state is rejected by the Literal check with a validation error
rather than coerced, so callers still never observe an unset state. -/
theorem participant_state_always_set (row : ParticipantRow)
    (q : Participant) (h : toParticipant row = Except.ok q) :
    (Participant.state q = some "ACTIVE" ∨
      Participant.state q = some "TERMINATED") ∧
    (row.state = none → Participant.state q = some "ACTIVE") := by
  obtain ⟨st, hst, hq⟩ := toParticipant_state row q h
  constructor
  · rcases validateState_cases row.state st hst with rfl | rfl
    · exact Or.inl hq
    · exact Or.inr hq
  · intro hnone
    rw [hnone] at hst
    cases hst
    exact hq

/-- Witness for C10 at a concrete row with a NULL stored state. -/
theorem participant_state_always_set_witness :
    toParticipant { rowC10 with state := none } =
      Except.ok (toParticipantD { rowC10 with state := none }) ∧
    ((Participant.state (toParticipantD { rowC10 with state := none }) =
        some "ACTIVE" ∨
      Participant.state (toParticipantD { rowC10 with state := none }) =
        some "TERMINATED") ∧
    (({ rowC10 with state := none } : ParticipantRow).state = none →
      Participant.state (toParticipantD { rowC10 with state := none }) =
        some "ACTIVE")) :=
  ⟨rfl, participant_state_always_set _ _ rfl⟩

/-- Counterexample to C10 as stated: a stored empty state is not coerced
to ACTIVE, the validation raises instead. -/
theorem empty_state_not_coerced :
    toParticipant rowC10 =
      Except.error "state: not a valid ParticipantStateLiteral" := rfl

/-- C5: terminate_participant and activate_participant on a participant
named SYSTEM return the participant unchanged and leave every database
row untouched. -/
theorem system_participant_state_immutable (db : DB) (p : Participant)
    (raise1 raise2 : Bool) (now1 now2 : Nat)
    (h : Participant.name p = "SYSTEM") :
    ParticipantRepository.terminate_participant db p raise1 now1 =
      Except.ok (db, p) ∧
    ParticipantRepository.activate_participant db p raise2 now2 =
      Except.ok (db, p) := by
  unfold ParticipantRepository.terminate_participant
    ParticipantRepository.activate_participant
  rw [h]
  simp

/-- Witness for C5 on a concrete SYSTEM participant. -/
theorem system_participant_state_immutable_witness :
    Participant.name pSystemC5 = "SYSTEM" ∧
    (ParticipantRepository.terminate_participant dbC7 pSystemC5 true 42 =
        Except.ok (dbC7, pSystemC5) ∧
      ParticipantRepository.activate_participant dbC7 pSystemC5 false 43 =
        Except.ok (dbC7, pSystemC5)) :=
  ⟨rfl, system_participant_state_immutable dbC7 pSystemC5 true false 42 43 rfl⟩

/-- C3 (code behaviour at the failing input): with the duplicate edge
already stored, create propagates the integrity error for BOTH values of
raise_error_on_duplicate, because the error surfaces at session.flush(),
outside the try block that only wraps session.add; the log-and-return-None
branch the docstring promises for raise_error_on_duplicate=False is dead
code. -/
theorem relation_create_duplicate_raises_despite_flag :
    ParticipantRelationRepository.create dbC3 candC3 false =
      Except.error
        "IntegrityError: UNIQUE constraint participant_relations_ak1" ∧
    ParticipantRelationRepository.create dbC3 candC3 true =
      Except.error
        "IntegrityError: UNIQUE constraint participant_relations_ak1" :=
  ⟨rfl, rfl⟩

/-! ## Characterization of the relation repository reads -/

/-- A mapM whose function succeeds pointwise is the successful map. -/
theorem mapM_eq_ok_of_forall {α β : Type} (f : α → Except String β)
    (g : α → β) (l : List α) (h : ∀ a ∈ l, f a = Except.ok (g a)) :
    l.mapM f = Except.ok (l.map g) := by
  induction l with
  | nil => rfl
  | cons a as ih =>
      rw [List.mapM_cons, h a (List.mem_cons_self a as),
        ih fun b hb => h b (List.mem_cons_of_mem a hb)]
      rfl

/-- Membership in the join of ParticipantRelationRepository.get: the
tuples satisfying the WHERE clause, whose only state condition is on the
source row. -/
theorem mem_relationGetRows (db : DB) (pid : Nat) (types : List String)
    (t : ParticipantRelationRow × ParticipantRow × ParticipantRow) :
    t ∈ relationGetRows db pid types ↔
      t.1 ∈ db.relations ∧ t.2.1 ∈ db.participants ∧
      t.2.2 ∈ db.participants ∧
      t.2.1.id = t.1.pati1_id ∧ t.2.2.id = t.1.pati2_id ∧
      t.1.pati1_id = pid ∧ t.2.1.id = pid ∧
      t.1.relation_type ∈ types ∧
      (t.2.1.state = none ∨ t.2.1.state = some "ACTIVE") := by
  unfold relationGetRows
  simp only [List.mem_flatMap, List.mem_filterMap,
    Option.ite_none_right_eq_some, Option.some.injEq]
  constructor
  · rintro ⟨rel, hrel, p1, hp1, p2, hp2, hc, rfl⟩
    exact ⟨hrel, hp1, hp2, hc.1, hc.2.1, hc.2.2.1, hc.2.2.2.1,
      hc.2.2.2.2.1, hc.2.2.2.2.2⟩
  · rintro ⟨h1, h2, h3, h4, h5, h6, h7, h8, h9⟩
    exact ⟨t.1, h1, t.2.1, h2, t.2.2, h3, ⟨h4, h5, h6, h7, h8, h9⟩, rfl⟩

/-- On a store whose rows validate and whose relation types are legal,
get succeeds and returns one RelatedParticipant per join tuple, holding
the validated target. -/
theorem relation_get_ok (db : DB) (pid : Nat) (types : List String)
    (hdb : ∀ r ∈ db.participants, ∃ q, toParticipant r = Except.ok q)
    (hrel : ∀ r ∈ db.relations,
      validateRelationType r.relation_type = Except.ok r.relation_type) :
    ParticipantRelationRepository.get db pid types =
      Except.ok ((relationGetRows db pid types).map fun t =>
        RelatedParticipant.mk t.1.relation_type (toParticipantD t.2.2)) := by
  unfold ParticipantRelationRepository.get
  apply mapM_eq_ok_of_forall
  intro t ht
  have hm := (mem_relationGetRows db pid types t).1 ht
  have hv := hrel t.1 hm.1
  obtain ⟨q, hq⟩ := hdb t.2.2 hm.2.2.1
  have hD : toParticipantD t.2.2 = q := by
    unfold toParticipantD
    rw [hq]
  rw [hv, hD]
  show toParticipant t.2.2 >>= _ = _
  rw [hq]
  rfl

/-- Full characterization of get(participant_id, relation_types): the
returned RelatedParticipants correspond to the join tuples, whose only
state condition is on the SOURCE row. -/
theorem relation_get_characterization (db : DB) (pid : Nat)
    (types : List String)
    (hdb : ∀ r ∈ db.participants, ∃ q, toParticipant r = Except.ok q)
    (hrel : ∀ r ∈ db.relations,
      validateRelationType r.relation_type = Except.ok r.relation_type) :
    ∃ l, ParticipantRelationRepository.get db pid types = Except.ok l ∧
      ∀ rp : RelatedParticipant, rp ∈ l ↔
        ∃ rel ∈ db.relations, ∃ p1 ∈ db.participants,
          ∃ p2 ∈ db.participants,
            p1.id = pid ∧ rel.pati1_id = pid ∧ p2.id = rel.pati2_id ∧
            rel.relation_type ∈ types ∧
            (p1.state = none ∨ p1.state = some "ACTIVE") ∧
            rp.relation_type = rel.relation_type ∧
            toParticipant p2 = Except.ok rp.participant := by
  refine ⟨_, relation_get_ok db pid types hdb hrel, ?_⟩
  intro rp
  rw [List.mem_map]
  constructor
  · rintro ⟨t, ht, rfl⟩
    have hm := (mem_relationGetRows db pid types t).1 ht
    obtain ⟨q, hq⟩ := hdb t.2.2 hm.2.2.1
    have hD : toParticipantD t.2.2 = q := by
      unfold toParticipantD
      rw [hq]
    refine ⟨t.1, hm.1, t.2.1, hm.2.1, t.2.2, hm.2.2.1, hm.2.2.2.2.2.2.1,
      hm.2.2.2.2.2.1, hm.2.2.2.2.1, hm.2.2.2.2.2.2.2.1,
      hm.2.2.2.2.2.2.2.2, rfl, ?_⟩
    show toParticipant t.2.2 = Except.ok (toParticipantD t.2.2)
    rw [hq, hD]
  · rintro ⟨rel, hrelm, p1, hp1, p2, hp2, hid1, hpid, hid2, htype, hstate,
      hrt, hq⟩
    refine ⟨(rel, p1, p2), ?_, ?_⟩
    · rw [mem_relationGetRows]
      refine ⟨hrelm, hp1, hp2, ?_, hid2, hpid, hid1, htype, hstate⟩
      rw [hid1, hpid]
    · have hD : toParticipantD p2 = rp.participant := by
        unfold toParticipantD
        rw [hq]
      cases rp with
      | mk rt pp =>
          simp only at hrt hD ⊢
          rw [hrt, hD]

/-- C1 amended: get(participant_id, relation_types) returns exactly the
outgoing edges of the requested types joined to the validated TARGET
participant, subject to the state filter being on the SOURCE row (state
NULL or ACTIVE); the target participant's state is not consulted, so
edges whose target is terminated are returned. -/
theorem relation_get_source_state_filter (db : DB) (pid : Nat)
    (types : List String)
    (hdb : ∀ r ∈ db.participants, ∃ q, toParticipant r = Except.ok q)
    (hrel : ∀ r ∈ db.relations,
      validateRelationType r.relation_type = Except.ok r.relation_type) :
    ∃ l, ParticipantRelationRepository.get db pid types = Except.ok l ∧
      ∀ rp : RelatedParticipant, rp ∈ l ↔
        ∃ rel ∈ db.relations, ∃ p1 ∈ db.participants,
          ∃ p2 ∈ db.participants,
            p1.id = pid ∧ rel.pati1_id = pid ∧ p2.id = rel.pati2_id ∧
            rel.relation_type ∈ types ∧
            (p1.state = none ∨ p1.state = some "ACTIVE") ∧
            rp.relation_type = rel.relation_type ∧
            toParticipant p2 = Except.ok rp.participant :=
  relation_get_characterization db pid types hdb hrel

/-- Witness for the amended C1 on the concrete store dbC1. -/
theorem relation_get_source_state_filter_witness :
    (∀ r ∈ dbC1.participants, ∃ q, toParticipant r = Except.ok q) ∧
    (∀ r ∈ dbC1.relations,
      validateRelationType r.relation_type = Except.ok r.relation_type) ∧
    ∃ l, ParticipantRelationRepository.get dbC1 1 ["GRANT"] = Except.ok l ∧
      ∀ rp : RelatedParticipant, rp ∈ l ↔
        ∃ rel ∈ dbC1.relations, ∃ p1 ∈ dbC1.participants,
          ∃ p2 ∈ dbC1.participants,
            p1.id = 1 ∧ rel.pati1_id = 1 ∧ p2.id = rel.pati2_id ∧
            rel.relation_type ∈ ["GRANT"] ∧
            (p1.state = none ∨ p1.state = some "ACTIVE") ∧
            rp.relation_type = rel.relation_type ∧
            toParticipant p2 = Except.ok rp.participant := by
  have h1 : ∀ r ∈ dbC1.participants, ∃ q, toParticipant r = Except.ok q := by
    intro r hr
    simp only [dbC1, List.mem_cons, List.not_mem_nil, or_false] at hr
    rcases hr with rfl | rfl
    · exact ⟨_, rfl⟩
    · exact ⟨_, rfl⟩
  have h2 : ∀ r ∈ dbC1.relations,
      validateRelationType r.relation_type = Except.ok r.relation_type := by
    intro r hr
    simp only [dbC1, List.mem_cons, List.not_mem_nil, or_false] at hr
    subst hr
    rfl
  exact ⟨h1, h2, relation_get_source_state_filter dbC1 1 ["GRANT"] h1 h2⟩

/-- Counterexample to C1 as stated: on dbC1 (active source, GRANT edge to
a TERMINATED target) get returns the edge, with the terminated target
attached, instead of excluding it. -/
theorem relation_get_terminated_target_returned :
    (ParticipantRelationRepository.get dbC1 1 ["GRANT"]).map
        (fun l => l.map fun rp =>
          (rp.relation_type, Participant.state rp.participant)) =
      Except.ok [("GRANT", some "TERMINATED")] := rfl

/-! ## Characterization of the effective-role computation -/

/-- Granted role names read through get for a participant whose own row is
NULL-or-ACTIVE: exactly the names of the GRANT targets (the targets' own
states unfiltered). -/
theorem relation_get_grant_names (db : DB) (pid : Nat)
    (hdb : ∀ r ∈ db.participants, ∃ q, toParticipant r = Except.ok q)
    (hrel : ∀ r ∈ db.relations,
      validateRelationType r.relation_type = Except.ok r.relation_type)
    (hact : ∃ row ∈ db.participants, row.id = pid ∧
      (row.state = none ∨ row.state = some "ACTIVE")) :
    ∃ l, ParticipantRelationRepository.get db pid ["GRANT"] = Except.ok l ∧
      ∀ n, (∃ rp ∈ l, Participant.name rp.participant = n) ↔
        grantedToName db pid n := by
  obtain ⟨l, hl, hiff⟩ :=
    relation_get_characterization db pid ["GRANT"] hdb hrel
  refine ⟨l, hl, fun n => ?_⟩
  constructor
  · rintro ⟨rp, hrp, rfl⟩
    obtain ⟨rel, hrelm, p1, hp1, p2, hp2, hid1, hpid, hid2, htype, hstate,
      hrt, hq⟩ := (hiff rp).1 hrp
    exact ⟨rel, hrelm, hpid, by simpa using htype, p2, hp2, hid2,
      rp.participant, hq, rfl⟩
  · rintro ⟨rel, hrelm, hpid, hgrant, p2, hp2, hid2, q, hq, rfl⟩
    obtain ⟨row, hrow, hrowid, hrowstate⟩ := hact
    refine ⟨RelatedParticipant.mk rel.relation_type q, ?_, ?_⟩
    · refine (hiff _).2 ⟨rel, hrelm, row, hrow, p2, hp2, hrowid, hpid,
        hid2, by simp [hgrant], hrowstate, rfl, hq⟩
    · rfl

/-- Fold characterization of get_granted_roles: the union over the given
participants of their granted role names. -/
theorem getGrantedRoles_ok (db : DB) (ps : List Participant)
    (hdb : ∀ r ∈ db.participants, ∃ q, toParticipant r = Except.ok q)
    (hrel : ∀ r ∈ db.relations,
      validateRelationType r.relation_type = Except.ok r.relation_type)
    (hact : ∀ pa ∈ ps, ∃ row ∈ db.participants, row.id = Participant.id pa ∧
      (row.state = none ∨ row.state = some "ACTIVE")) :
    ∃ S, getGrantedRoles db ps = Except.ok S ∧
      ∀ n, n ∈ S ↔ ∃ pa ∈ ps, grantedToName db (Participant.id pa) n := by
  suffices hgen : ∀ (acc : Finset String),
      ∃ S, ps.foldlM
        (fun roles pati => do
          let relations ← ParticipantRelationRepository.get db
            (Participant.id pati) ["GRANT"]
          Except.ok (roles ∪
            (relations.map fun r => Participant.name r.participant).toFinset))
        acc = Except.ok S ∧
      ∀ n, n ∈ S ↔ n ∈ acc ∨
        ∃ pa ∈ ps, grantedToName db (Participant.id pa) n by
    obtain ⟨S, hS, hmem⟩ := hgen ∅
    exact ⟨S, hS, fun n => by simpa using hmem n⟩
  induction ps with
  | nil =>
      intro acc
      exact ⟨acc, rfl, fun n => by simp⟩
  | cons pa pas ih =>
      intro acc
      obtain ⟨l, hl, hnames⟩ := relation_get_grant_names db
        (Participant.id pa) hdb hrel (hact pa (List.mem_cons_self pa pas))
      have hact' : ∀ pb ∈ pas, ∃ row ∈ db.participants,
          row.id = Participant.id pb ∧
          (row.state = none ∨ row.state = some "ACTIVE") :=
        fun pb hb => hact pb (List.mem_cons_of_mem pa hb)
      obtain ⟨S, hS, hmem⟩ := (ih hact')
        (acc ∪ (l.map fun r => Participant.name r.participant).toFinset)
      refine ⟨S, ?_, fun n => ?_⟩
      · rw [List.foldlM_cons, hl]
        exact hS
      · rw [hmem n]
        simp only [Finset.mem_union, List.mem_toFinset, List.mem_map,
          List.mem_cons]
        constructor
        · rintro ((hn | hn) | ⟨pb, hb, hg⟩)
          · exact Or.inl hn
          · refine Or.inr ⟨pa, Or.inl rfl, ?_⟩
            obtain ⟨rp, hrp, hname⟩ := hn
            exact (hnames n).1 ⟨rp, hrp, hname⟩
          · exact Or.inr ⟨pb, Or.inr hb, hg⟩
        · rintro (hn | ⟨pb, hb | hb, hg⟩)
          · exact Or.inl (Or.inl hn)
          · subst hb
            obtain ⟨rp, hrp, hname⟩ := (hnames n).2 hg
            exact Or.inl (Or.inr ⟨rp, hrp, hname⟩)
          · exact Or.inr ⟨pb, hb, hg⟩

/-- Setting effective_roles stores exactly that set. -/
theorem effective_roles_withEffectiveRoles (p : Participant)
    (ef : Finset String) :
    Participant.effective_roles (Participant.withEffectiveRoles p ef) = ef := by
  cases p
  rfl

/-- Full characterization of compute_effective_roles as the one-hop union
of direct, org-unit granted and proxy-target granted role names. -/
theorem compute_effective_roles_spec (db : DB) (p : Participant)
    (hdb : ∀ r ∈ db.participants, ∃ q, toParticipant r = Except.ok q)
    (hrel : ∀ r ∈ db.relations,
      validateRelationType r.relation_type = Except.ok r.relation_type)
    (hou : ∀ ou ∈ Participant.org_units p, ∃ row ∈ db.participants,
      row.id = Participant.id ou ∧
      (row.state = none ∨ row.state = some "ACTIVE"))
    (hpx : ∀ px ∈ Participant.proxy_of p, ∃ row ∈ db.participants,
      row.id = Participant.id px ∧
      (row.state = none ∨ row.state = some "ACTIVE")) :
    ∃ eff, ParticipantRepository.compute_effective_roles db p =
        Except.ok (Participant.withEffectiveRoles p eff, eff) ∧
      Participant.effective_roles (Participant.withEffectiveRoles p eff) =
        eff ∧
      ∀ n, n ∈ eff ↔
        ((∃ r ∈ Participant.roles p, Participant.name r = n) ∨
         (∃ ou ∈ Participant.org_units p,
           grantedToName db (Participant.id ou) n) ∨
         (∃ px ∈ Participant.proxy_of p,
           grantedToName db (Participant.id px) n)) := by
  obtain ⟨S1, hS1, hm1⟩ :=
    getGrantedRoles_ok db (Participant.org_units p) hdb hrel hou
  obtain ⟨S2, hS2, hm2⟩ :=
    getGrantedRoles_ok db (Participant.proxy_of p) hdb hrel hpx
  refine ⟨((Participant.roles p).map fun r => Participant.name r).toFinset ∪
    S1 ∪ S2, ?_, effective_roles_withEffectiveRoles _ _, fun n => ?_⟩
  · unfold ParticipantRepository.compute_effective_roles
    dsimp only
    rw [hS1, hS2]
    rfl
  · simp only [Finset.mem_union, List.mem_toFinset, List.mem_map, hm1 n,
      hm2 n]
    rw [or_assoc]

/-- C2: on a store whose rows validate, for a participant whose org_units
and proxy_of lists point at NULL-or-ACTIVE rows (as hydration guarantees),
compute_effective_roles succeeds and returns exactly the union of the
names of the directly granted roles, the names granted via GRANT edges to
each org unit (one hop only), and the names granted to each proxy target
(one hop only); the same set is stored into participant.effective_roles. -/
theorem compute_effective_roles_one_hop_union (db : DB) (p : Participant)
    (hdb : ∀ r ∈ db.participants, ∃ q, toParticipant r = Except.ok q)
    (hrel : ∀ r ∈ db.relations,
      validateRelationType r.relation_type = Except.ok r.relation_type)
    (hou : ∀ ou ∈ Participant.org_units p, ∃ row ∈ db.participants,
      row.id = Participant.id ou ∧
      (row.state = none ∨ row.state = some "ACTIVE"))
    (hpx : ∀ px ∈ Participant.proxy_of p, ∃ row ∈ db.participants,
      row.id = Participant.id px ∧
      (row.state = none ∨ row.state = some "ACTIVE")) :
    ∃ eff, ParticipantRepository.compute_effective_roles db p =
        Except.ok (Participant.withEffectiveRoles p eff, eff) ∧
      Participant.effective_roles (Participant.withEffectiveRoles p eff) =
        eff ∧
      ∀ n, n ∈ eff ↔
        ((∃ r ∈ Participant.roles p, Participant.name r = n) ∨
         (∃ ou ∈ Participant.org_units p,
           grantedToName db (Participant.id ou) n) ∨
         (∃ px ∈ Participant.proxy_of p,
           grantedToName db (Participant.id px) n)) :=
  compute_effective_roles_spec db p hdb hrel hou hpx

/-- Witness for C2 on the concrete store dbC2 and the hydrated human
pC2 (member of O1 which holds RX, proxy of H2 which holds RZ, with the
two-hop role RY reachable only through nested org membership). -/
theorem compute_effective_roles_one_hop_union_witness :
    (∀ r ∈ dbC2.participants, ∃ q, toParticipant r = Except.ok q) ∧
    (∀ r ∈ dbC2.relations,
      validateRelationType r.relation_type = Except.ok r.relation_type) ∧
    (∀ ou ∈ Participant.org_units pC2, ∃ row ∈ dbC2.participants,
      row.id = Participant.id ou ∧
      (row.state = none ∨ row.state = some "ACTIVE")) ∧
    (∀ px ∈ Participant.proxy_of pC2, ∃ row ∈ dbC2.participants,
      row.id = Participant.id px ∧
      (row.state = none ∨ row.state = some "ACTIVE")) ∧
    ∃ eff, ParticipantRepository.compute_effective_roles dbC2 pC2 =
        Except.ok (Participant.withEffectiveRoles pC2 eff, eff) ∧
      Participant.effective_roles (Participant.withEffectiveRoles pC2 eff) =
        eff ∧
      ∀ n, n ∈ eff ↔
        ((∃ r ∈ Participant.roles pC2, Participant.name r = n) ∨
         (∃ ou ∈ Participant.org_units pC2,
           grantedToName dbC2 (Participant.id ou) n) ∨
         (∃ px ∈ Participant.proxy_of pC2,
           grantedToName dbC2 (Participant.id px) n)) := by
  have h1 : ∀ r ∈ dbC2.participants, ∃ q, toParticipant r = Except.ok q := by
    intro r hr
    simp only [dbC2, List.mem_cons, List.not_mem_nil, or_false] at hr
    rcases hr with rfl | rfl | rfl | rfl | rfl | rfl | rfl <;> exact ⟨_, rfl⟩
  have h2 : ∀ r ∈ dbC2.relations,
      validateRelationType r.relation_type = Except.ok r.relation_type := by
    intro r hr
    simp only [dbC2, List.mem_cons, List.not_mem_nil, or_false] at hr
    rcases hr with rfl | rfl | rfl | rfl | rfl | rfl <;> rfl
  have h3 : ∀ ou ∈ Participant.org_units pC2, ∃ row ∈ dbC2.participants,
      row.id = Participant.id ou ∧
      (row.state = none ∨ row.state = some "ACTIVE") := by decide
  have h4 : ∀ px ∈ Participant.proxy_of pC2, ∃ row ∈ dbC2.participants,
      row.id = Participant.id px ∧
      (row.state = none ∨ row.state = some "ACTIVE") := by decide
  exact ⟨h1, h2, h3, h4,
    compute_effective_roles_one_hop_union dbC2 pC2 h1 h2 h3 h4⟩

/-! ## The administrator check and the login population of its inputs -/

/-- Counterexample to C4 as stated: H1 has no directly granted role at
all, but the session roles populated at login are the computed effective
roles (which contain ADMINISTRATOR via the org unit grant), so
user_is_administrator returns true for an effective-only administrator. -/
theorem admin_check_effective_only_counterexample :
    Participant.roles pC4 = [] ∧
    "ADMINISTRATOR" ∈ SessionUser.roles suC4 ∧
    user_is_administrator suC4 enfC4 none = true := by
  refine ⟨rfl, by decide, by decide⟩

/-- C4 amended: the administrator check consults the session roles and
the enforcer assignments, both of which login populates from effective
roles; in particular, for any participant one of whose org units holds a
GRANT edge to a role named ADMINISTRATOR, user_is_administrator applied
to the session user built at login returns true, although the role may
not be directly assigned. -/
theorem admin_check_accepts_inherited (db : DB) (p : Participant)
    (enf : Enforcer) (username : Option String)
    (hdb : ∀ r ∈ db.participants, ∃ q, toParticipant r = Except.ok q)
    (hrel : ∀ r ∈ db.relations,
      validateRelationType r.relation_type = Except.ok r.relation_type)
    (hou : ∀ ou ∈ Participant.org_units p, ∃ row ∈ db.participants,
      row.id = Participant.id ou ∧
      (row.state = none ∨ row.state = some "ACTIVE"))
    (hpx : ∀ px ∈ Participant.proxy_of p, ∃ row ∈ db.participants,
      row.id = Participant.id px ∧
      (row.state = none ∨ row.state = some "ACTIVE"))
    (hadmin : ∃ ou ∈ Participant.org_units p,
      grantedToName db (Participant.id ou) "ADMINISTRATOR") :
    user_is_administrator
      { username := Participant.name p
        roles := sessionRolesOrEmpty (update_user_session_state_roles db p) }
      enf username = true := by
  obtain ⟨eff, heff, _, hmem⟩ :=
    compute_effective_roles_spec db p hdb hrel hou hpx
  have hne : (!(Participant.roles p).isEmpty ||
      !(Participant.org_units p).isEmpty ||
      !(Participant.proxy_of p).isEmpty) = true := by
    obtain ⟨ou, hou', _⟩ := hadmin
    cases hl : Participant.org_units p with
    | nil =>
        rw [hl] at hou'
        simp at hou'
    | cons a as => simp
  have hroles : update_user_session_state_roles db p = Except.ok eff := by
    unfold update_user_session_state_roles
    rw [if_pos hne, heff]
    rfl
  have hmemA : "ADMINISTRATOR" ∈ eff := (hmem _).2 (Or.inr (Or.inl hadmin))
  unfold user_is_administrator
  rw [if_pos]
  show "ADMINISTRATOR" ∈ sessionRolesOrEmpty
    (update_user_session_state_roles db p)
  rw [hroles]
  exact hmemA

/-- Witness for the amended C4 on the concrete store dbC4. -/
theorem admin_check_accepts_inherited_witness :
    (∀ r ∈ dbC4.participants, ∃ q, toParticipant r = Except.ok q) ∧
    (∀ r ∈ dbC4.relations,
      validateRelationType r.relation_type = Except.ok r.relation_type) ∧
    (∀ ou ∈ Participant.org_units pC4, ∃ row ∈ dbC4.participants,
      row.id = Participant.id ou ∧
      (row.state = none ∨ row.state = some "ACTIVE")) ∧
    (∀ px ∈ Participant.proxy_of pC4, ∃ row ∈ dbC4.participants,
      row.id = Participant.id px ∧
      (row.state = none ∨ row.state = some "ACTIVE")) ∧
    (∃ ou ∈ Participant.org_units pC4,
      grantedToName dbC4 (Participant.id ou) "ADMINISTRATOR") ∧
    user_is_administrator
      { username := Participant.name pC4
        roles :=
          sessionRolesOrEmpty (update_user_session_state_roles dbC4 pC4) }
      enfC4 none = true := by
  have h1 : ∀ r ∈ dbC4.participants, ∃ q, toParticipant r = Except.ok q := by
    intro r hr
    simp only [dbC4, List.mem_cons, List.not_mem_nil, or_false] at hr
    rcases hr with rfl | rfl | rfl <;> exact ⟨_, rfl⟩
  have h2 : ∀ r ∈ dbC4.relations,
      validateRelationType r.relation_type = Except.ok r.relation_type := by
    intro r hr
    simp only [dbC4, List.mem_cons, List.not_mem_nil, or_false] at hr
    rcases hr with rfl | rfl <;> rfl
  have h3 : ∀ ou ∈ Participant.org_units pC4, ∃ row ∈ dbC4.participants,
      row.id = Participant.id ou ∧
      (row.state = none ∨ row.state = some "ACTIVE") := by decide
  have h4 : ∀ px ∈ Participant.proxy_of pC4, ∃ row ∈ dbC4.participants,
      row.id = Participant.id px ∧
      (row.state = none ∨ row.state = some "ACTIVE") := by decide
  have h5 : ∃ ou ∈ Participant.org_units pC4,
      grantedToName dbC4 (Participant.id ou) "ADMINISTRATOR" := by
    refine ⟨pOrgC4, List.mem_cons_self _ _, ?_⟩
    refine ⟨{ id := 2, pati1_id := 2, pati2_id := 3,
              relation_type := "GRANT", created_by := "SYSTEM" },
      ?_, rfl, rfl,
      { id := 3, name := "ADMINISTRATOR", display_name := "Admin role",
        participant_type := "ROLE", state := some "ACTIVE",
        created_by := "SYSTEM" },
      ?_, rfl, ⟨_, rfl, rfl⟩⟩
    · simp [dbC4]
    · simp [dbC4]
  exact ⟨h1, h2, h3, h4, h5,
    admin_check_accepts_inherited dbC4 pC4 enfC4 none h1 h2 h3 h4 h5⟩

/-! ## Partial update characterization -/

/-- C6 amended: for an update whose relation fields (org_units, roles,
proxy_of) are unset, whose NOT NULL columns are not being set to None,
and whose new values do not collide with the uniqueness constraints,
update(id, pati_update) writes exactly the explicitly set fields (an
explicitly set None is written as NULL on the nullable columns), always
stamps updated_timestamp (the caller's value or the update object's
creation time) and updated_by, and leaves every other stored field and
every other row unchanged; the refreshed row is validated and returned. -/
theorem update_writes_exactly_set_fields (db : DB) (id_ : Nat)
    (u : ParticipantUpdate) (row : ParticipantRow) (n d : String) (c : Int)
    (raise : Bool) (q : Participant)
    (hfind : db.participants.filter (fun r => r.id = id_) = [row])
    (hou : u.org_units = none) (hro : u.roles = none)
    (hpo : u.proxy_of = none)
    (hn : updField u.name (some row.name) = some n)
    (hd : updField u.display_name (some row.display_name) = some d)
    (hc : updField u.update_count (some row.update_count) = some c)
    (huniq : ∀ r ∈ db.participants, ¬(r.id ≠ id_ ∧
      r.participant_type = row.participant_type ∧
      (r.name = n ∨ r.display_name = d)))
    (hq : toParticipant (rowAfterUpdate row u n d c) = Except.ok q) :
    ParticipantRepository.update db id_ u raise =
      Except.ok ({ db with participants := db.participants.map fun r =>
        if r.id = id_ then rowAfterUpdate row u n d c else r }, some q) := by
  unfold ParticipantRepository.update
  rw [hfind]
  simp only [hou, hro, hpo, Option.isSome_none, Bool.or_self,
    Bool.false_eq_true, if_false]
  rw [hn, hd, hc]
  dsimp only
  have hany : (db.participants.any fun r =>
      decide (r.id ≠ id_ ∧
        r.participant_type = (rowAfterUpdate row u n d c).participant_type ∧
        (r.name = (rowAfterUpdate row u n d c).name ∨
          r.display_name = (rowAfterUpdate row u n d c).display_name))) =
      false := by
    rw [List.any_eq_false]
    intro r hr
    simpa [rowAfterUpdate] using huniq r hr
  simp only [rowAfterUpdate] at hany
  rw [hany]
  simp only [Bool.false_eq_true, if_false]
  show (toParticipant (rowAfterUpdate row u n d c) >>= _) = _
  rw [hq]
  rfl

/-- Witness for the amended C6: updating only display_name on dbC6. -/
theorem update_writes_exactly_set_fields_witness :
    (dbC6.participants.filter (fun r => r.id = 1) = [rowC6]) ∧
    updC6.org_units = none ∧ updC6.roles = none ∧ updC6.proxy_of = none ∧
    updField updC6.name (some rowC6.name) = some "U1" ∧
    updField updC6.display_name (some rowC6.display_name) = some "X" ∧
    updField updC6.update_count (some rowC6.update_count) = some 0 ∧
    (∀ r ∈ dbC6.participants, ¬(r.id ≠ 1 ∧
      r.participant_type = rowC6.participant_type ∧
      (r.name = "U1" ∨ r.display_name = "X"))) ∧
    toParticipant (rowAfterUpdate rowC6 updC6 "U1" "X" 0) =
      Except.ok (toParticipantD (rowAfterUpdate rowC6 updC6 "U1" "X" 0)) ∧
    ParticipantRepository.update dbC6 1 updC6 false =
      Except.ok ({ dbC6 with participants := dbC6.participants.map fun r =>
        if r.id = 1 then rowAfterUpdate rowC6 updC6 "U1" "X" 0 else r },
        some (toParticipantD (rowAfterUpdate rowC6 updC6 "U1" "X" 0))) :=
  ⟨rfl, rfl, rfl, rfl, rfl, rfl, rfl, by decide, rfl,
    update_writes_exactly_set_fields dbC6 1 updC6 rowC6 "U1" "X" 0 false
      (toParticipantD (rowAfterUpdate rowC6 updC6 "U1" "X" 0))
      rfl rfl rfl rfl rfl rfl rfl (by decide) rfl⟩

/-- Counterexample to C6 as stated: a ParticipantUpdate whose roles field
was explicitly set does not perform a partial update at all; the UPDATE
statement fails on the non-column field. -/
theorem update_relation_field_errors :
    ParticipantRepository.update dbC6 1 updC6bad false =
      Except.error "CompileError: unconsumed column names" := rfl

/-! ## Characterization of exists -/

/-- Evaluation of get_by_name (without relation hydration) from the
one_or_none filter result. -/
theorem get_by_name_eval (db : DB) (name pt : String)
    (hpt : pt ∈ participantTypes) :
    (db.participants.filter
        (fun r => r.name = name ∧ r.participant_type = pt) = [] →
      ParticipantRepository.get_by_name db name pt = Except.ok none) ∧
    (∀ row q, db.participants.filter
        (fun r => r.name = name ∧ r.participant_type = pt) = [row] →
      toParticipant row = Except.ok q →
      ParticipantRepository.get_by_name db name pt = Except.ok (some q)) := by
  constructor
  · intro hf
    unfold ParticipantRepository.get_by_name
    rw [if_neg (not_not_intro hpt), hf]
    rfl
  · intro row q hf hq
    unfold ParticipantRepository.get_by_name
    rw [if_neg (not_not_intro hpt), hf]
    show (toParticipant row >>= _) = _
    rw [hq]
    rfl

/-- Evaluation of get_by_display_name from the one_or_none filter
result. -/
theorem get_by_display_name_eval (db : DB) (dn pt : String)
    (hpt : pt ∈ participantTypes) :
    (db.participants.filter
        (fun r => r.display_name = dn ∧ r.participant_type = pt) = [] →
      ParticipantRepository.get_by_display_name db dn pt = Except.ok none) ∧
    (∀ row q, db.participants.filter
        (fun r => r.display_name = dn ∧ r.participant_type = pt) = [row] →
      toParticipant row = Except.ok q →
      ParticipantRepository.get_by_display_name db dn pt =
        Except.ok (some q)) := by
  constructor
  · intro hf
    unfold ParticipantRepository.get_by_display_name
    rw [if_neg (not_not_intro hpt), hf]
    rfl
  · intro row q hf hq
    unfold ParticipantRepository.get_by_display_name
    rw [if_neg (not_not_intro hpt), hf]
    show (toParticipant row >>= _) = _
    rw [hq]
    rfl

/-- Evaluation of get_by_id from the one_or_none filter result (no
participant_type is involved at all). -/
theorem get_by_id_eval (db : DB) (id_ : Nat) :
    (db.participants.filter (fun r => r.id = id_) = [] →
      ParticipantRepository.get_by_id db id_ = Except.ok none) ∧
    (∀ row q, db.participants.filter (fun r => r.id = id_) = [row] →
      toParticipant row = Except.ok q →
      ParticipantRepository.get_by_id db id_ = Except.ok (some q)) := by
  constructor
  · intro hf
    unfold ParticipantRepository.get_by_id
    rw [hf]
    rfl
  · intro row q hf hq
    unfold ParticipantRepository.get_by_id
    rw [hf]
    show (toParticipant row >>= _) = _
    rw [hq]
    rfl

/-- C7: exists raises a ValueError for an invalid participant_type or an
invalid column; for a valid column it returns the found participant's
validated state string (the one_or_none filter result naming the match),
the false sentinel (none) when no participant matches, and the false
sentinel when the python type of the value does not fit the column. The
id column looks up by id alone, ignoring the participant_type. -/
theorem exists_returns_state_or_false (db : DB) (column : String)
    (value : PyVal) (participant_type : String) :
    (participant_type ∉ participantTypes →
      ParticipantRepository.exists db column value participant_type =
        Except.error "ValueError: wrong participant_type") ∧
    (participant_type ∈ participantTypes →
      column ∉ ["id", "name", "display_name"] →
      ParticipantRepository.exists db column value participant_type =
        Except.error "ValueError: wrong column") ∧
    (participant_type ∈ participantTypes →
      (∀ s, column = "name" → value = PyVal.str s →
        (db.participants.filter (fun r =>
            r.name = s ∧ r.participant_type = participant_type) = [] →
          ParticipantRepository.exists db column value participant_type =
            Except.ok none) ∧
        (∀ row q, db.participants.filter (fun r =>
            r.name = s ∧ r.participant_type = participant_type) = [row] →
          toParticipant row = Except.ok q →
          ParticipantRepository.exists db column value participant_type =
            Except.ok (some (pyStr (Participant.state q))))) ∧
      (∀ s, column = "display_name" → value = PyVal.str s →
        (db.participants.filter (fun r =>
            r.display_name = s ∧ r.participant_type = participant_type) =
              [] →
          ParticipantRepository.exists db column value participant_type =
            Except.ok none) ∧
        (∀ row q, db.participants.filter (fun r =>
            r.display_name = s ∧ r.participant_type = participant_type) =
              [row] →
          toParticipant row = Except.ok q →
          ParticipantRepository.exists db column value participant_type =
            Except.ok (some (pyStr (Participant.state q))))) ∧
      (∀ nn, column = "id" → value = PyVal.int nn →
        (db.participants.filter (fun r => r.id = nn) = [] →
          ParticipantRepository.exists db column value participant_type =
            Except.ok none) ∧
        (∀ row q, db.participants.filter (fun r => r.id = nn) = [row] →
          toParticipant row = Except.ok q →
          ParticipantRepository.exists db column value participant_type =
            Except.ok (some (pyStr (Participant.state q))))) ∧
      (∀ s, column = "id" → value = PyVal.str s →
        ParticipantRepository.exists db column value participant_type =
          Except.ok none) ∧
      ((column = "name" ∨ column = "display_name") →
        ∀ nn, value = PyVal.int nn →
        ParticipantRepository.exists db column value participant_type =
          Except.ok none)) := by
  refine ⟨?_, ?_, ?_⟩
  · intro hpt
    unfold ParticipantRepository.exists
    rw [if_pos hpt]
  · intro hpt hcol
    unfold ParticipantRepository.exists
    rw [if_neg (not_not_intro hpt), if_pos hcol]
  · intro hpt
    refine ⟨?_, ?_, ?_, ?_, ?_⟩
    · rintro s rfl rfl
      constructor
      · intro hf
        unfold ParticipantRepository.exists
        rw [if_neg (not_not_intro hpt), if_neg (by decide),
          if_neg (by decide)]
        show (ParticipantRepository.get_by_name db s participant_type >>= _) =
          _
        rw [(get_by_name_eval db s participant_type hpt).1 hf]
        rfl
      · intro row q hf hq
        unfold ParticipantRepository.exists
        rw [if_neg (not_not_intro hpt), if_neg (by decide),
          if_neg (by decide)]
        show (ParticipantRepository.get_by_name db s participant_type >>= _) =
          _
        rw [(get_by_name_eval db s participant_type hpt).2 row q hf hq]
        rfl
    · rintro s rfl rfl
      constructor
      · intro hf
        unfold ParticipantRepository.exists
        rw [if_neg (not_not_intro hpt), if_neg (by decide),
          if_neg (by decide)]
        show (ParticipantRepository.get_by_display_name db s
          participant_type >>= _) = _
        rw [(get_by_display_name_eval db s participant_type hpt).1 hf]
        rfl
      · intro row q hf hq
        unfold ParticipantRepository.exists
        rw [if_neg (not_not_intro hpt), if_neg (by decide),
          if_neg (by decide)]
        show (ParticipantRepository.get_by_display_name db s
          participant_type >>= _) = _
        rw [(get_by_display_name_eval db s participant_type hpt).2
          row q hf hq]
        rfl
    · rintro nn rfl rfl
      constructor
      · intro hf
        unfold ParticipantRepository.exists
        rw [if_neg (not_not_intro hpt), if_neg (by decide),
          if_pos (by decide)]
        show (ParticipantRepository.get_by_id db nn >>= _) = _
        rw [(get_by_id_eval db nn).1 hf]
        rfl
      · intro row q hf hq
        unfold ParticipantRepository.exists
        rw [if_neg (not_not_intro hpt), if_neg (by decide),
          if_pos (by decide)]
        show (ParticipantRepository.get_by_id db nn >>= _) = _
        rw [(get_by_id_eval db nn).2 row q hf hq]
        rfl
    · rintro s rfl rfl
      unfold ParticipantRepository.exists
      rw [if_neg (not_not_intro hpt), if_neg (by decide),
        if_pos (by decide)]
    · rintro (rfl | rfl) nn rfl
      · unfold ParticipantRepository.exists
        rw [if_neg (not_not_intro hpt), if_neg (by decide),
          if_neg (by decide)]
      · unfold ParticipantRepository.exists
        rw [if_neg (not_not_intro hpt), if_neg (by decide),
          if_neg (by decide)]

/-- Witness for C7 on the concrete store dbC7: a found participant
yields its state string, a miss yields the false sentinel, and invalid
arguments raise. -/
theorem exists_returns_state_or_false_witness :
    ParticipantRepository.exists dbC7 "name" (PyVal.str "U2") "HUMAN" =
      Except.ok (some "TERMINATED") ∧
    ParticipantRepository.exists dbC7 "name" (PyVal.str "NOPE") "HUMAN" =
      Except.ok none ∧
    ParticipantRepository.exists dbC7 "name" (PyVal.str "U1") "WRONG" =
      Except.error "ValueError: wrong participant_type" ∧
    ParticipantRepository.exists dbC7 "email" (PyVal.str "U1") "HUMAN" =
      Except.error "ValueError: wrong column" := by
  refine ⟨?_, ?_, ?_, ?_⟩
  · have h := ((exists_returns_state_or_false dbC7 "name" (PyVal.str "U2")
      "HUMAN").2.2 (by decide)).1 "U2" rfl rfl
    exact h.2
      { id := 2, name := "U2", display_name := "U two",
        participant_type := "HUMAN", state := some "TERMINATED",
        created_by := "SYSTEM" }
      (toParticipantD
        { id := 2, name := "U2", display_name := "U two",
          participant_type := "HUMAN", state := some "TERMINATED",
          created_by := "SYSTEM" })
      rfl rfl
  · exact (((exists_returns_state_or_false dbC7 "name" (PyVal.str "NOPE")
      "HUMAN").2.2 (by decide)).1 "NOPE" rfl rfl).1 rfl
  · exact (exists_returns_state_or_false dbC7 "name" (PyVal.str "U1")
      "WRONG").1 (by decide)
  · exact (exists_returns_state_or_false dbC7 "email" (PyVal.str "U1")
      "HUMAN").2.1 (by decide) (by decide)
